import Mathlib

/-!
Verification development for a Klondike Solitaire rules engine.

The engine is a pure state-transition model: an immutable game state
(tableau, foundations, stock, waste, stats), a seeded Fisher-Yates deal,
move validation and application, stock drawing/recycling, win detection,
a greedy auto-complete loop, a best-move heuristic, and an undo/redo
history manager.

Modelling conventions:
* JavaScript numbers that hold integers are modelled as `Int`
  (ranks, counts, indices, stats fields).
* JavaScript array index reads `a[i]` that may yield `undefined` are
  modelled with `Option`; property access on `undefined` (a thrown
  TypeError) is modelled by propagating `none` through the enclosing
  function, whose codomain is then wrapped in `Option`.
* `Array.prototype.slice`/`splice` start/end arguments are normalised
  exactly as in ECMAScript (negative values count from the end, results
  are clamped to `[0, length]`); see `jsStartIndex`.
-/

namespace Solitaire

inductive Suit where
  | hearts
  | diamonds
  | clubs
  | spades
deriving DecidableEq, Repr

inductive Color where
  | red
  | black
deriving DecidableEq, Repr

structure Card where
  suit : Suit
  rank : Int
  faceUp : Bool
deriving DecidableEq, Repr

instance : Inhabited Card := ⟨⟨Suit.hearts, 1, false⟩⟩

/-- A pile of cards; the "top" of the pile is the last list element. -/
abbrev Pile := List Card

structure Tableau where
  columns : List Pile
deriving DecidableEq, Repr

structure Foundations where
  hearts : Pile
  diamonds : Pile
  clubs : Pile
  spades : Pile
deriving DecidableEq, Repr

structure StockAndWaste where
  stock : Pile
  waste : Pile
deriving DecidableEq, Repr

structure GameStats where
  moves : Int
  score : Int
  startTime : Int
  elapsedSeconds : Int
deriving DecidableEq, Repr

structure GameState where
  tableau : Tableau
  foundations : Foundations
  stockAndWaste : StockAndWaste
  stats : GameStats
  isWon : Bool
deriving DecidableEq, Repr

inductive CardLocation where
  | tableau (columnIndex : Int) (cardIndex : Int)
  | foundation (suit : Suit)
  | stock
  | waste
deriving DecidableEq, Repr

structure Move where
  from' : CardLocation
  to' : CardLocation
  cardCount : Int
deriving DecidableEq, Repr

inductive Result (α : Type) where
  | success (value : α)
  | failure (error : String)
deriving DecidableEq, Repr

/-! JavaScript array helpers. -/

/-- Reading `a[i]` on a JS array: `none` models `undefined` (negative or
too-large index). -/
def jsGet (l : List α) (i : Int) : Option α :=
  if i < 0 then none else l[i.toNat]?

/-- ECMAScript normalisation of a relative start/end index for
`slice`/`splice`: negative indices count from the end of the array and
the result is clamped into `[0, len]`. -/
def jsStartIndex (len : Nat) (i : Int) : Nat :=
  if i < 0 then ((len : Int) + i).toNat else min i.toNat len

/-- JS `l.slice(start)` (one-argument form). -/
def jsSliceFrom (l : List α) (start : Int) : List α :=
  l.drop (jsStartIndex l.length start)

/-- JS `l.slice(0, stop)`. -/
def jsSliceUpTo (l : List α) (stop : Int) : List α :=
  l.take (jsStartIndex l.length stop)

/-! Card utilities (src/game/card/color.ts, deck.ts, stacking.ts). -/

def getSuitColor (suit : Suit) : Color :=
  if suit = Suit.hearts ∨ suit = Suit.diamonds then Color.red else Color.black

def getCardColor (card : Card) : Color := getSuitColor card.suit

def hasAlternatingColors (card1 card2 : Card) : Bool :=
  decide (getCardColor card1 ≠ getCardColor card2)

/-- src/game/card/stacking.ts: opposite color and exactly one rank lower. -/
def canStackOnTableau (cardToPlace targetCard : Card) : Bool :=
  hasAlternatingColors cardToPlace targetCard &&
    decide (cardToPlace.rank = targetCard.rank - 1)

/-- src/game/card/stacking.ts: same suit as the foundation; an Ace on an
empty pile, otherwise exactly one rank above the pile's top card. -/
def canStackOnFoundation (cardToPlace : Card) (foundationTopCard : Option Card)
    (foundationSuit : Suit) : Bool :=
  if cardToPlace.suit ≠ foundationSuit then false
  else
    match foundationTopCard with
    | none => decide (cardToPlace.rank = 1)
    | some t => decide (cardToPlace.rank = t.rank + 1)

def isKing (card : Card) : Bool := decide (card.rank = 13)

def isAce (card : Card) : Bool := decide (card.rank = 1)

def flipCardUp (card : Card) : Card :=
  if card.faceUp then card else { card with faceUp := true }

def flipCardDown (card : Card) : Card :=
  if card.faceUp then { card with faceUp := false } else card

/-! Deck creation and the seeded shuffle (src/game/card/deck.ts). -/

def SUITS : List Suit := [Suit.hearts, Suit.diamonds, Suit.clubs, Suit.spades]

def RANKS : List Int := [1, 2, 3, 4, 5, 6, 7, 8, 9, 10, 11, 12, 13]

def createDeck : List Card :=
  SUITS.flatMap (fun suit => RANKS.map (fun rank => ⟨suit, rank, false⟩))

/-- One step of `createSeededRandom`:
`state = (state * 1103515245 + 12345) & 0x7fffffff`.  For an integer JS
number, `& 0x7fffffff` (ToInt32 followed by the mask) equals reduction
modulo `2^31`. -/
def lcgNext (state : Int) : Int := (state * 1103515245 + 12345) % 2147483648

/-- `Math.floor(random() * bound)` where `random()` returns
`state / 0x7fffffff` for the updated LCG state. -/
def randomIndex (state : Int) (bound : Nat) : Nat :=
  (state.toNat * bound) / 2147483647

/-- The JS destructuring swap `[cards[i], cards[j]] = [cards[j], cards[i]]`.
When both indices are in bounds this swaps the two entries.  The
fallback branch (where JS would write `undefined` into the array) is
unreachable in the shuffle: `j ≤ i + 1` always, and `j = i + 1` at the
first iteration would need `random()` to return exactly 1, which IEEE-754
double rounding prevents for every integer seed (the division constant is
the prime `2^31 - 1`, so no intermediate product is an exact multiple). -/
def swapCards (cards : List Card) (i j : Nat) : List Card :=
  if i < cards.length ∧ j < cards.length then
    (cards.set i (cards.getD j default)).set j (cards.getD i default)
  else cards

/-- Iteration order of the Fisher-Yates loop: `len-1` down to `1`. -/
def shuffleIndices (len : Nat) : List Nat :=
  (List.range (len - 1)).map (fun k => len - 1 - k)

/-- One iteration of the Fisher-Yates loop body: advance the generator,
pick `j = Math.floor(random() * (i + 1))`, swap. -/
def shuffleStep (acc : List Card × Int) (i : Nat) : List Card × Int :=
  let st := lcgNext acc.2
  (swapCards acc.1 i (randomIndex st (i + 1)), st)

def shuffleDeck (deck : List Card) (seed : Int) : List Card :=
  ((shuffleIndices deck.length).foldl shuffleStep (deck, seed)).1

/-! Dealing (src/game/state/deal.ts). -/

/-- The tableau-building reduce: column `col` (0-based) receives `col + 1`
cards from the shuffled deck, the last one face up; returns the columns
together with the number of cards consumed. -/
def dealColumns (shuffled : List Card) : List Pile × Nat :=
  (List.range 7).foldl
    (fun acc col =>
      let cards := (List.range (col + 1)).map (fun row =>
        let card := shuffled.getD (acc.2 + row) default
        if row = col then flipCardUp card else card)
      (acc.1 ++ [cards], acc.2 + (col + 1)))
    ([], 0)

def createEmptyFoundations : Foundations := ⟨[], [], [], []⟩

/-- Initial stats; `now` stands for the wall-clock `Date.now()` input. -/
def createInitialStats (now : Int) : GameStats := ⟨0, 0, now, 0⟩

def dealGame (seed : Int) (now : Int) : GameState :=
  let shuffled := shuffleDeck createDeck seed
  let dealResult := dealColumns shuffled
  let stockCards := shuffled.drop dealResult.2
  { tableau := ⟨dealResult.1⟩
    foundations := createEmptyFoundations
    stockAndWaste := ⟨stockCards, []⟩
    stats := createInitialStats now
    isWon := false }

/-! State accessors (state/accessors.ts, suit-keyed foundations variant). -/

/-- The top card of a pile: `pile[pile.length - 1]` when non-empty. -/
def getTopCard (pile : Pile) : Option Card := pile.getLast?

def getFoundationPile (foundations : Foundations) (suit : Suit) : Pile :=
  match suit with
  | Suit.hearts => foundations.hearts
  | Suit.diamonds => foundations.diamonds
  | Suit.clubs => foundations.clubs
  | Suit.spades => foundations.spades

def setFoundationPile (foundations : Foundations) (suit : Suit) (pile : Pile) :
    Foundations :=
  match suit with
  | Suit.hearts => { foundations with hearts := pile }
  | Suit.diamonds => { foundations with diamonds := pile }
  | Suit.clubs => { foundations with clubs := pile }
  | Suit.spades => { foundations with spades := pile }

/-- Cards implicated by a move source.  Outer `none` models the TypeError
thrown when a tableau `columnIndex` is out of range (the code reads
`column.length` on `undefined`).  For an in-range column, an out-of-range
`cardIndex` yields the empty run; otherwise `column.slice(cardIndex)`. -/
def getCardsForMove (state : GameState) (source : CardLocation) :
    Option (List Card) :=
  match source with
  | CardLocation.tableau columnIndex cardIndex =>
    match jsGet state.tableau.columns columnIndex with
    | none => none
    | some column =>
      if (column.length : Int) ≤ cardIndex then some []
      else some (jsSliceFrom column cardIndex)
  | CardLocation.waste =>
    match getTopCard state.stockAndWaste.waste with
    | some topCard => some [topCard]
    | none => some []
  | CardLocation.foundation suit =>
    match getTopCard (getFoundationPile state.foundations suit) with
    | some topCard => some [topCard]
    | none => some []
  | CardLocation.stock => some []

/-! Move validation (src/game/state/validation.ts). -/

/-- Validation.  Outer `none` models a thrown TypeError (out-of-range
tableau column index at the source or the destination); `some` carries
the typed ok/error result the function returns. -/
def validateMove (state : GameState) (move : Move) : Option (Result Bool) :=
  match getCardsForMove state move.from' with
  | none => none
  | some [] => some (Result.failure ("No cards at source location"))
  | some (cardToMove :: _) =>
    match move.to' with
    | CardLocation.tableau columnIndex _ =>
      match jsGet state.tableau.columns columnIndex with
      | none => none
      | some targetColumn =>
        match getTopCard targetColumn with
        | none =>
          if isKing cardToMove then some (Result.success true)
          else some (Result.failure ("Only Kings can be placed on empty tableau columns"))
        | some targetCard =>
          if canStackOnTableau cardToMove targetCard then some (Result.success true)
          else some (Result.failure ("Card must be opposite color and one rank lower"))
    | CardLocation.foundation suit =>
      if move.cardCount > 1 then
        some (Result.failure ("Can only move single cards to foundation"))
      else
        let foundationPile := getFoundationPile state.foundations suit
        let topCard := getTopCard foundationPile
        if canStackOnFoundation cardToMove topCard suit then some (Result.success true)
        else some (Result.failure ("Card must be same suit and next rank up"))
    | CardLocation.stock => some (Result.failure ("Cannot move cards to stock"))
    | CardLocation.waste => some (Result.failure ("Cannot move cards directly to waste"))

/-! Move application (state/moves.ts). -/

/-- After `column.splice(cardIndex)`, flip the new top card if face-down. -/
def flipLastIfFaceDown (column : List Card) : List Card :=
  match column.getLast? with
  | none => column
  | some last =>
    if last.faceUp then column
    else column.dropLast ++ [flipCardUp last]

/-- Removal from the move source.  The `none` results of the column
lookup cannot occur on validated moves (validation already resolved the
same column); the identity fallback mirrors the code's defensive
`stock` branch and is unreachable from `applyMove`. -/
def removeCardsFromSource (state : GameState) (move : Move) : GameState :=
  match move.from' with
  | CardLocation.tableau columnIndex cardIndex =>
    match jsGet state.tableau.columns columnIndex with
    | none => state
    | some column =>
      let column' := flipLastIfFaceDown (column.take (jsStartIndex column.length cardIndex))
      { state with tableau := ⟨state.tableau.columns.set columnIndex.toNat column'⟩ }
  | CardLocation.waste =>
    { state with
      stockAndWaste :=
        { state.stockAndWaste with waste := state.stockAndWaste.waste.dropLast } }
  | CardLocation.foundation suit =>
    { state with
      foundations :=
        setFoundationPile state.foundations suit
          (getFoundationPile state.foundations suit).dropLast }
  | CardLocation.stock => state

def addCardsToDestination (state : GameState) (destination : CardLocation)
    (cards : List Card) : GameState :=
  match destination with
  | CardLocation.tableau columnIndex _ =>
    match jsGet state.tableau.columns columnIndex with
    | none => state
    | some column =>
      { state with
        tableau := ⟨state.tableau.columns.set columnIndex.toNat (column ++ cards)⟩ }
  | CardLocation.foundation suit =>
    { state with
      foundations :=
        setFoundationPile state.foundations suit
          (getFoundationPile state.foundations suit ++ cards) }
  | CardLocation.stock => state
  | CardLocation.waste => state

/-- Win condition (state/win.ts): all four foundations hold 13 cards. -/
def checkWinCondition (state : GameState) : Bool :=
  decide (state.foundations.hearts.length = 13) &&
  decide (state.foundations.diamonds.length = 13) &&
  decide (state.foundations.clubs.length = 13) &&
  decide (state.foundations.spades.length = 13)

def applyMove (state : GameState) (move : Move) : Option (Result GameState) :=
  match validateMove state move with
  | none => none
  | some (Result.failure e) => some (Result.failure e)
  | some (Result.success _) =>
    match getCardsForMove state move.from' with
    | none => none
    | some cardsToMove =>
      if cardsToMove.isEmpty then some (Result.failure ("No cards to move"))
      else
        let stateAfterRemoval := removeCardsFromSource state move
        let stateAfterAdd := addCardsToDestination stateAfterRemoval move.to' cardsToMove
        some (Result.success
          { stateAfterAdd with
            stats := { stateAfterAdd.stats with moves := stateAfterAdd.stats.moves + 1 }
            isWon := checkWinCondition stateAfterAdd })

/-! Stock drawing and recycling (src/game/state/stock.ts). -/

def drawFromStock (state : GameState) (count : Int) : GameState :=
  let stock := state.stockAndWaste.stock
  let waste := state.stockAndWaste.waste
  if stock.length = 0 then
    if waste.length = 0 then state
    else
      let newStock :=
        (waste.map (fun card =>
          if card.faceUp then { card with faceUp := false } else card)).reverse
      { state with stockAndWaste := ⟨newStock, []⟩ }
  else
    let drawCount : Int := min count (stock.length : Int)
    let drawnCards := ((jsSliceFrom stock (-drawCount)).map flipCardUp).reverse
    let newStock := jsSliceUpTo stock (-drawCount)
    let newWaste := waste ++ drawnCards
    { state with stockAndWaste := ⟨newStock, newWaste⟩ }

/-! History manager (store/history.ts). -/

def MAX_HISTORY_LENGTH : Nat := 100

structure HistoryState where
  past : List GameState
  present : GameState
  future : List GameState
deriving DecidableEq

def pushToHistory (history : HistoryState) (newState : GameState) : HistoryState :=
  let newPast := history.past ++ [history.present]
  let trimmedPast :=
    if newPast.length > MAX_HISTORY_LENGTH then
      jsSliceFrom newPast (-(MAX_HISTORY_LENGTH : Int))
    else newPast
  ⟨trimmedPast, newState, []⟩

def undoHistory (history : HistoryState) : Option HistoryState :=
  match history.past.getLast? with
  | none => none
  | some previousState =>
    some ⟨history.past.dropLast, previousState, history.present :: history.future⟩

def redoHistory (history : HistoryState) : Option HistoryState :=
  match history.future with
  | [] => none
  | nextState :: rest => some ⟨history.past ++ [history.present], nextState, rest⟩

/-! Auto-complete (src/store/auto-complete.ts, suit-keyed variant). -/

def tableauCardCount (state : GameState) : Nat :=
  (state.tableau.columns.map List.length).sum

/-- The inner `findMove` recursion: scan columns `colIndex..6` and return
the state after the first top-card-to-foundation move that succeeds.
The first argument counts the remaining iterations (`7 - colIndex` at
every call site), which makes the self-recursion structural. -/
def findMoveAux (state : GameState) : Nat → Nat → Option GameState
  | 0, _ => none
  | fuel + 1, colIndex =>
    if colIndex ≥ 7 then none
    else
      let column := state.tableau.columns.getD colIndex []
      if column.length = 0 then findMoveAux state fuel (colIndex + 1)
      else
        let topCard := column.getD (column.length - 1) default
        let move : Move :=
          ⟨CardLocation.tableau (colIndex : Int) ((column.length : Int) - 1),
            CardLocation.foundation topCard.suit, 1⟩
        match applyMove state move with
        | some (Result.success value) => some value
        | _ => findMoveAux state fuel (colIndex + 1)

def findMove (state : GameState) (colIndex : Nat) : Option GameState :=
  findMoveAux state (7 - colIndex) colIndex

/-- The `tryAutoMove` self-recursion, with explicit fuel.  Each successful
`findMove` removes a tableau card, so fuel `tableauCardCount state + 1`
reaches the fixed point (proved below). -/
def tryAutoMove (fuel : Nat) (state : GameState) : GameState :=
  match fuel with
  | 0 => state
  | fuel + 1 =>
    if checkWinCondition state then state
    else
      match findMove state 0 with
      | some newState => tryAutoMove fuel newState
      | none => state

def performAutoComplete (currentState : GameState) : GameState :=
  tryAutoMove (tableauCardCount currentState + 1) currentState

/-! Card conservation vocabulary. -/

def cardPair (card : Card) : Suit × Int := (card.suit, card.rank)

def allCardsList (state : GameState) : List Card :=
  state.tableau.columns.flatten ++
    (state.foundations.hearts ++ state.foundations.diamonds ++
      state.foundations.clubs ++ state.foundations.spades) ++
    state.stockAndWaste.stock ++ state.stockAndWaste.waste

def cardMultiset (state : GameState) : Multiset (Suit × Int) :=
  ((allCardsList state).map cardPair : List (Suit × Int))

def standardDeck : Multiset (Suit × Int) :=
  (createDeck.map cardPair : List (Suit × Int))

/-- The multiset of (suit, rank) pairs of a card list. -/
def pairsOf (l : List Card) : Multiset (Suit × Int) := ((l.map cardPair : List (Suit × Int)) : Multiset (Suit × Int))

/-- Destination tableau column index is resolvable (foundation always is;
stock/waste are never legal destinations). -/
def destColumnOk (s : GameState) (dest : CardLocation) : Prop :=
  match dest with
  | CardLocation.tableau ci _ => ¬ ci < 0 ∧ ci.toNat < s.tableau.columns.length
  | CardLocation.foundation _ => True
  | CardLocation.stock => False
  | CardLocation.waste => False


/-- Tableau column index of a location is in range for this state (the
condition under which the JS code resolves the column without throwing). -/
def tableauIndexOk (s : GameState) (loc : CardLocation) : Prop :=
  match loc with
  | CardLocation.tableau ci _ => ¬ ci < 0 ∧ ci.toNat < s.tableau.columns.length
  | _ => True

/-- The move-legality rule exactly as the spec states it: the source run
must be non-empty; a tableau destination needs an empty column and a King
lead, or a top card of the opposite color whose rank is exactly one
greater than the lead's; a foundation destination needs a single-card
move, a lead of the foundation's suit, and an Ace on an empty pile or a
rank exactly one above the pile's top card; stock and waste destinations
are always illegal. -/
def claimLegalMove (s : GameState) (m : Move) : Prop :=
  ∃ lead rest, getCardsForMove s m.from' = some (lead :: rest) ∧
    (match m.to' with
     | CardLocation.tableau ci _ =>
        ∃ col, jsGet s.tableau.columns ci = some col ∧
          ((col = [] ∧ lead.rank = 13) ∨
           (∃ t, getTopCard col = some t ∧
             getCardColor t ≠ getCardColor lead ∧ t.rank = lead.rank + 1))
     | CardLocation.foundation suit =>
        ¬ m.cardCount > 1 ∧ lead.suit = suit ∧
          ((getFoundationPile s.foundations suit = [] ∧ lead.rank = 1) ∨
           (∃ t, getTopCard (getFoundationPile s.foundations suit) = some t ∧
             lead.rank = t.rank + 1))
     | CardLocation.stock => False
     | CardLocation.waste => False)

def foundationCardCount (s : GameState) : Nat :=
  s.foundations.hearts.length + s.foundations.diamonds.length +
    s.foundations.clubs.length + s.foundations.spades.length

/-! Concrete states used by the witness theorems. -/

def c1WitnessState : GameState := dealGame 42 0

def c1WitnessMove : Move :=
  ⟨CardLocation.tableau 0 0,
   CardLocation.foundation
     (((dealGame 42 0).tableau.columns.getD 0 []).getD 0 default).suit, 1⟩

def c1WitnessResult : GameState :=
  match applyMove c1WitnessState c1WitnessMove with
  | some (Result.success s) => s
  | _ => c1WitnessState

def c3State : GameState :=
  { tableau := ⟨[[⟨Suit.spades, 13, true⟩], [], [], [], [], [], []]⟩
    foundations := ⟨[], [], [], []⟩
    stockAndWaste := ⟨[], []⟩
    stats := ⟨5, 0, 0, 0⟩
    isWon := false }

def c3Move : Move := ⟨CardLocation.tableau 0 0, CardLocation.tableau 1 0, 1⟩

def c4State : GameState :=
  { tableau := ⟨[[], [], [], [], [], [], []]⟩
    foundations := ⟨[], [], [], []⟩
    stockAndWaste := ⟨[⟨Suit.hearts, 2, false⟩, ⟨Suit.spades, 5, false⟩], []⟩
    stats := ⟨0, 0, 0, 0⟩
    isWon := false }

def c4EmptyState : GameState :=
  { tableau := ⟨[[], [], [], [], [], [], []]⟩
    foundations := ⟨[], [], [], []⟩
    stockAndWaste := ⟨[], []⟩
    stats := ⟨0, 0, 0, 0⟩
    isWon := false }

def c4RecycleState : GameState :=
  { tableau := ⟨[[], [], [], [], [], [], []]⟩
    foundations := ⟨[], [], [], []⟩
    stockAndWaste := ⟨[], [⟨Suit.hearts, 3, true⟩, ⟨Suit.clubs, 7, true⟩]⟩
    stats := ⟨0, 0, 0, 0⟩
    isWon := false }

def c8State : GameState :=
  { tableau := ⟨[[⟨Suit.hearts, 1, true⟩], [], [], [], [], [], []]⟩
    foundations := ⟨[], [], [], []⟩
    stockAndWaste := ⟨[], []⟩
    stats := ⟨0, 0, 0, 0⟩
    isWon := false }

def c8FindResult : GameState :=
  match findMove c8State 0 with
  | some s => s
  | none => c8State

/-!
The repository also contains a second design variant in which the four
foundations are anonymous piles addressed by `pileIndex` instead of by
suit (state/accessors.ts of that variant, TopRow.tsx, useGameHandlers.ts,
and src/game/state/smart-moves.ts, which builds
`{ type: 'foundation', pileIndex: i }` destinations).  `findBestMove`
belongs to this variant.  Its validation module is not part of the
source snapshot, so it is modelled from the spec below.
-/

namespace PileVariant

structure VFoundations where
  piles : List Pile
deriving DecidableEq, Repr

structure VGameState where
  tableau : Tableau
  foundations : VFoundations
  stockAndWaste : StockAndWaste
  stats : GameStats
  isWon : Bool
deriving DecidableEq, Repr

inductive VCardLocation where
  | tableau (columnIndex : Int) (cardIndex : Int)
  | foundation (pileIndex : Nat)
  | stock
  | waste
deriving DecidableEq, Repr

structure VMove where
  from' : VCardLocation
  to' : VCardLocation
  cardCount : Int
deriving DecidableEq, Repr

/-- Pile-variant `getCardAtLocation` (state/accessors.ts of the variant):
`columns[columnIndex][cardIndex]` for tableau, top of the addressed pile
otherwise.  `none` covers both an `undefined` read and the TypeError the
code would throw on an out-of-range `columnIndex`/`pileIndex`; the
theorems below only use it where the distinction is immaterial. -/
def vGetCardAtLocation (state : VGameState) (location : VCardLocation) :
    Option Card :=
  match location with
  | VCardLocation.tableau columnIndex cardIndex =>
    match jsGet state.tableau.columns columnIndex with
    | none => none
    | some column => jsGet column cardIndex
  | VCardLocation.foundation pileIndex =>
    match state.foundations.piles[pileIndex]? with
    | none => none
    | some pile => getTopCard pile
  | VCardLocation.waste => getTopCard state.stockAndWaste.waste
  | VCardLocation.stock => getTopCard state.stockAndWaste.stock

/-- Pile-variant `getCardsForMove` (state/accessors.ts of the variant):
for a tableau source, `columns[columnIndex]` followed by the bounds test
`cardIndex >= column.length` (empty run when it holds) and
`column.slice(cardIndex)`; that length read throws a TypeError when
`columnIndex` is out of range, modelled as `none`.  For a waste source,
a singleton of the waste's top card (empty when the waste is empty).
For a foundation source, `piles[pileIndex]` followed by a singleton of
its top card; `getTopCard` reads `pile.length` and so throws (`none`)
when `pileIndex` is out of range.  For stock, always empty. -/
def vGetCardsForMove (state : VGameState) (source : VCardLocation) :
    Option (List Card) :=
  match source with
  | VCardLocation.tableau columnIndex cardIndex =>
    match jsGet state.tableau.columns columnIndex with
    | none => none
    | some column =>
      if (column.length : Int) ≤ cardIndex then some []
      else some (jsSliceFrom column cardIndex)
  | VCardLocation.waste =>
    match getTopCard state.stockAndWaste.waste with
    | some topCard => some [topCard]
    | none => some []
  | VCardLocation.foundation pileIndex =>
    match state.foundations.piles[pileIndex]? with
    | none => none
    | some pile =>
      match getTopCard pile with
      | some topCard => some [topCard]
      | none => some []
  | VCardLocation.stock => some []

/-- Modelled from the spec: the destination rules of the pile-variant
`validateMove` (§4.5 with the §9 pile-keyed foundation rule; the
variant's validation module is not in the snapshot).  Tableau: an empty
column takes only a King, otherwise opposite color and one rank lower.
Foundation: single card only; an Ace on an empty pile, otherwise the
same suit as the pile's current top card and exactly one rank above it.
Stock and waste are never legal destinations. -/
def vValidateRules (state : VGameState) (cardToMove : Card) (move : VMove) :
    Result Bool :=
  match move.to' with
  | VCardLocation.tableau columnIndex _ =>
    match jsGet state.tableau.columns columnIndex with
    | none => Result.failure ("Invalid destination")
    | some targetColumn =>
      match getTopCard targetColumn with
      | none =>
        if isKing cardToMove then Result.success true
        else Result.failure ("Only Kings can be placed on empty tableau columns")
      | some targetCard =>
        if canStackOnTableau cardToMove targetCard then Result.success true
        else Result.failure ("Card must be opposite color and one rank lower")
  | VCardLocation.foundation pileIndex =>
    if move.cardCount > 1 then Result.failure ("Can only move single cards to foundation")
    else
      match state.foundations.piles[pileIndex]? with
      | none => Result.failure ("Invalid destination")
      | some pile =>
        match getTopCard pile with
        | none =>
          if isAce cardToMove then Result.success true
          else Result.failure ("Card must be same suit and next rank up")
        | some topCard =>
          if cardToMove.suit = topCard.suit ∧ cardToMove.rank = topCard.rank + 1 then
            Result.success true
          else Result.failure ("Card must be same suit and next rank up")
  | VCardLocation.stock => Result.failure ("Cannot move cards to stock")
  | VCardLocation.waste => Result.failure ("Cannot move cards directly to waste")

/-- Modelled from the spec: the pile-variant `validateMove` (§4.5; the
variant's validation module is not in the snapshot, only its callers
and accessors).  The source run is resolved by the source-faithful
`vGetCardsForMove`, whose thrown TypeError propagates as `none`; an
empty run fails, and otherwise the spec's destination rules
(`vValidateRules`) decide, totally and side-effect free. -/
def vValidateMove (state : VGameState) (move : VMove) : Option (Result Bool) :=
  match vGetCardsForMove state move.from' with
  | none => none
  | some [] => some (Result.failure ("No cards at source location"))
  | some (cardToMove :: _) => some (vValidateRules state cardToMove move)

def isOkResult : Result Bool → Bool
  | Result.success _ => true
  | Result.failure _ => false

/-- `validateMove(state, move).success` as the loop test of
smart-moves.ts, on the optional validation result; a throw (`none`)
never reaches this test because `tryMoves` propagates it first. -/
def isOkOptResult : Option (Result Bool) → Bool
  | some r => isOkResult r
  | none => false

/-- One early-return loop of `findBestMove`: try the moves in order;
`some (some move)` is the first whose validation succeeds, `some none`
means the list was exhausted, and `none` propagates a TypeError thrown
by a `validateMove` call. -/
def tryMoves (state : VGameState) : List VMove → Option (Option VMove)
  | [] => some none
  | move :: rest =>
    match vValidateMove state move with
    | none => none
    | some r => if isOkResult r then some (some move) else tryMoves state rest

/-- First move of the list accepted by validation: the claim's
"first move that validates" reading of the early-return loops. -/
def firstValidatingMove (state : VGameState) (moves : List VMove) : Option VMove :=
  moves.find? (fun move => isOkOptResult (vValidateMove state move))

/-- The `continue` test of the tableau loop in `findBestMove`. -/
def isSourceColumn (source : VCardLocation) (i : Nat) : Bool :=
  match source with
  | VCardLocation.tableau columnIndex _ => decide (columnIndex = (i : Int))
  | _ => false

/-- src/game/state/smart-moves.ts `findBestMove`: resolve the card at
the source (`null` — `some none` — when absent; `vGetCardAtLocation`'s
conflation of `undefined` with its own throw is inherited here), compute
the run length for a tableau source, try the four foundation slots in
index order when moving a single card, then the seven tableau columns in
index order (skipping the source's own column), returning the first move
that validates; the outer `Option` propagates a TypeError thrown by a
`validateMove` call inside either loop. -/
def findBestMove (state : VGameState) (source : VCardLocation) :
    Option (Option VMove) :=
  match vGetCardAtLocation state source with
  | none => some none
  | some _ =>
    let cardCount : Int :=
      match source with
      | VCardLocation.tableau columnIndex cardIndex =>
        (((state.tableau.columns.getD columnIndex.toNat []).length : Int) - cardIndex)
      | _ => 1
    let foundationMove : Option (Option VMove) :=
      if cardCount = 1 then
        tryMoves state
          ((List.range 4).map (fun i => ⟨source, VCardLocation.foundation i, 1⟩))
      else some none
    match foundationMove with
    | none => none
    | some (some move) => some (some move)
    | some none =>
      tryMoves state
        (((List.range 7).filter (fun i => ! isSourceColumn source i)).map
          (fun i => ⟨source, VCardLocation.tableau (i : Int) 0, cardCount⟩))

/-- The candidate order stated by the claim: foundation slots 0..3 first
(only when the resolved source run has length exactly 1), then tableau
columns 0..6 skipping the source's own column. -/
def claimCandidates (state : VGameState) (source : VCardLocation) : List VMove :=
  let cardCount : Int :=
    match source with
    | VCardLocation.tableau columnIndex cardIndex =>
      (((state.tableau.columns.getD columnIndex.toNat []).length : Int) - cardIndex)
    | _ => 1
  (if ((vGetCardsForMove state source).getD []).length = 1 then
    (List.range 4).map (fun i => (⟨source, VCardLocation.foundation i, 1⟩ : VMove))
  else []) ++
    ((List.range 7).filter (fun i => ! isSourceColumn source i)).map
      (fun i => (⟨source, VCardLocation.tableau (i : Int) 0, cardCount⟩ : VMove))

/-- Concrete pile-variant state used by the witness theorem. -/
def c6State : VGameState :=
  { tableau := ⟨[[⟨Suit.hearts, 1, true⟩], [], [], [], [], [], []]⟩
    foundations := ⟨[[], [], [], []]⟩
    stockAndWaste := ⟨[], []⟩
    stats := ⟨0, 0, 0, 0⟩
    isWon := false }

end PileVariant

/-! Helper lemmas. -/

theorem cardPair_flipCardUp (c : Card) : cardPair (flipCardUp c) = cardPair c := by
  unfold flipCardUp cardPair; split <;> rfl

theorem set_append_perm {α : Type} (l : List α) (n : Nat) (a : α) (h : n < l.length) :
    (l.set n a ++ [l[n]]).Perm (l ++ [a]) := by
  rw [List.set_eq_take_cons_drop a h]
  conv_rhs =>
    rw [show l = l.take n ++ l[n] :: l.drop (n + 1) by
      rw [← List.drop_eq_getElem_cons h, List.take_append_drop]]
  rw [List.append_assoc, List.append_assoc]
  refine List.Perm.append_left _ ?_
  refine List.Perm.trans (List.Perm.cons a (@List.perm_append_comm _ (l.drop (n + 1)) _)) ?_
  refine List.Perm.trans (List.Perm.swap l[n] a (l.drop (n + 1))) ?_
  exact List.Perm.cons l[n] (@List.perm_append_comm _ [a] _)

theorem coe_set_add {α : Type} (l : List α) (n : Nat) (a : α) (h : n < l.length) :
    ((l.set n a : List α) : Multiset α) + {l[n]} = (l : Multiset α) + {a} := by
  calc ((l.set n a : List α) : Multiset α) + {l[n]}
      = ((l.set n a ++ [l[n]] : List α) : Multiset α) := rfl
    _ = ((l ++ [a] : List α) : Multiset α) := Multiset.coe_eq_coe.2 (set_append_perm l n a h)
    _ = (l : Multiset α) + {a} := rfl

theorem swapCards_length (l : List Card) (i j : Nat) :
    (swapCards l i j).length = l.length := by
  unfold swapCards; split <;> simp

theorem swapCards_coe (l : List Card) (i j : Nat) :
    ((swapCards l i j : List Card) : Multiset Card) = (l : Multiset Card) := by
  unfold swapCards
  split
  case isTrue h =>
    obtain ⟨hi, hj⟩ := h
    have ha : l.getD i default = l[i] := List.getD_eq_getElem l default hi
    have hj' : j < (l.set i (l.getD j default)).length := by simpa using hj
    have hc : (l.set i (l.getD j default))[j] = l.getD j default := by
      rw [List.getElem_set]
      split
      · rfl
      · exact (List.getD_eq_getElem l default hj).symm
    have m1 := coe_set_add (l.set i (l.getD j default)) j (l.getD i default) hj'
    have m2 := coe_set_add l i (l.getD j default) hi
    rw [hc] at m1
    have key : ((l.set i (l.getD j default)).set j (l.getD i default) : Multiset Card)
        + {l.getD j default} + {l[i]}
        = (l : Multiset Card) + {l.getD j default} + {l[i]} := by
      calc ((l.set i (l.getD j default)).set j (l.getD i default) : Multiset Card)
          + {l.getD j default} + {l[i]}
          = ((l.set i (l.getD j default) : List Card) : Multiset Card)
            + {l.getD i default} + {l[i]} := by rw [m1]
        _ = ((l.set i (l.getD j default) : List Card) : Multiset Card)
            + {l[i]} + {l.getD i default} := by rw [add_right_comm]
        _ = (l : Multiset Card) + {l.getD j default} + {l.getD i default} := by rw [m2]
        _ = (l : Multiset Card) + {l.getD j default} + {l[i]} := by rw [ha]
    exact add_right_cancel (add_right_cancel key)
  case isFalse h => rfl

theorem foldl_shuffleStep_coe (steps : List Nat) :
    ∀ (l : List Card) (s : Int),
      (((steps.foldl shuffleStep (l, s)).1 : List Card) : Multiset Card) = ↑l := by
  induction steps with
  | nil => intro l s; rfl
  | cons i rest ih =>
    intro l s
    rw [List.foldl_cons]
    show (((rest.foldl shuffleStep (shuffleStep (l, s) i)).1 : List Card) : Multiset Card) = ↑l
    rw [show shuffleStep (l, s) i
        = (swapCards l i (randomIndex (lcgNext s) (i + 1)), lcgNext s) from rfl]
    rw [ih]
    exact swapCards_coe l i (randomIndex (lcgNext s) (i + 1))

theorem foldl_shuffleStep_length (steps : List Nat) :
    ∀ (l : List Card) (s : Int),
      ((steps.foldl shuffleStep (l, s)).1).length = l.length := by
  induction steps with
  | nil => intro l s; rfl
  | cons i rest ih =>
    intro l s
    rw [List.foldl_cons]
    show ((rest.foldl shuffleStep (shuffleStep (l, s) i)).1).length = l.length
    rw [show shuffleStep (l, s) i
        = (swapCards l i (randomIndex (lcgNext s) (i + 1)), lcgNext s) from rfl]
    rw [ih]
    exact swapCards_length l i (randomIndex (lcgNext s) (i + 1))

theorem shuffleDeck_coe (deck : List Card) (seed : Int) :
    ((shuffleDeck deck seed : List Card) : Multiset Card) = ↑deck :=
  foldl_shuffleStep_coe (shuffleIndices deck.length) deck seed

theorem shuffleDeck_length (deck : List Card) (seed : Int) :
    (shuffleDeck deck seed).length = deck.length :=
  foldl_shuffleStep_length (shuffleIndices deck.length) deck seed

theorem dealColumns_snd (l : List Card) : (dealColumns l).2 = 28 := rfl

theorem dealColumns_fst (l : List Card) :
    (dealColumns l).1 =
      [[flipCardUp (l.getD 0 default)],
       [l.getD 1 default, flipCardUp (l.getD 2 default)],
       [l.getD 3 default, l.getD 4 default, flipCardUp (l.getD 5 default)],
       [l.getD 6 default, l.getD 7 default, l.getD 8 default,
        flipCardUp (l.getD 9 default)],
       [l.getD 10 default, l.getD 11 default, l.getD 12 default,
        l.getD 13 default, flipCardUp (l.getD 14 default)],
       [l.getD 15 default, l.getD 16 default, l.getD 17 default,
        l.getD 18 default, l.getD 19 default, flipCardUp (l.getD 20 default)],
       [l.getD 21 default, l.getD 22 default, l.getD 23 default,
        l.getD 24 default, l.getD 25 default, l.getD 26 default,
        flipCardUp (l.getD 27 default)]] := rfl

theorem take_eq_map_range {α : Type} (d : α) :
    ∀ (n : Nat) (l : List α), n ≤ l.length →
      l.take n = (List.range n).map (fun i => l.getD i d) := by
  intro n
  induction n with
  | zero => intro l _; simp
  | succ n ih =>
    intro l h
    rw [List.take_succ, List.range_succ, List.map_append,
      ih l (Nat.le_of_succ_le h)]
    have hn : n < l.length := Nat.lt_of_succ_le h
    simp [List.getElem?_eq_getElem hn, List.getD_eq_getElem l d hn]

theorem take28_eq (l : List Card) (h : 28 ≤ l.length) :
    l.take 28 =
      [l.getD 0 default, l.getD 1 default, l.getD 2 default, l.getD 3 default,
       l.getD 4 default, l.getD 5 default, l.getD 6 default, l.getD 7 default,
       l.getD 8 default, l.getD 9 default, l.getD 10 default, l.getD 11 default,
       l.getD 12 default, l.getD 13 default, l.getD 14 default, l.getD 15 default,
       l.getD 16 default, l.getD 17 default, l.getD 18 default, l.getD 19 default,
       l.getD 20 default, l.getD 21 default, l.getD 22 default, l.getD 23 default,
       l.getD 24 default, l.getD 25 default, l.getD 26 default, l.getD 27 default] := by
  rw [take_eq_map_range default 28 l h]; rfl

theorem dealGame_cardMultiset (seed now : Int) :
    cardMultiset (dealGame seed now) = standardDeck := by
  have hlen : (shuffleDeck createDeck seed).length = 52 := by
    rw [shuffleDeck_length]; rfl
  have h28 : (28 : Nat) ≤ (shuffleDeck createDeck seed).length := by omega
  have hall : allCardsList (dealGame seed now) =
      (dealColumns (shuffleDeck createDeck seed)).1.flatten
        ++ (shuffleDeck createDeck seed).drop 28 := by
    unfold dealGame allCardsList createEmptyFoundations
    simp [dealColumns_snd]
  have hflat : ((dealColumns (shuffleDeck createDeck seed)).1.flatten).map cardPair
      = ((shuffleDeck createDeck seed).take 28).map cardPair := by
    rw [dealColumns_fst, take28_eq (shuffleDeck createDeck seed) h28]
    simp [cardPair_flipCardUp]
  unfold cardMultiset standardDeck
  rw [hall, List.map_append, hflat, ← List.map_append, List.take_append_drop,
    ← Multiset.map_coe, ← Multiset.map_coe, shuffleDeck_coe]





theorem pairsOf_append (a b : List Card) : pairsOf (a ++ b) = pairsOf a + pairsOf b := by
  unfold pairsOf; rw [List.map_append]; rfl

theorem cardMultiset_eq (s : GameState) :
    cardMultiset s =
      pairsOf s.tableau.columns.flatten +
        (pairsOf s.foundations.hearts + pairsOf s.foundations.diamonds +
          pairsOf s.foundations.clubs + pairsOf s.foundations.spades) +
        pairsOf s.stockAndWaste.stock + pairsOf s.stockAndWaste.waste := by
  unfold cardMultiset allCardsList pairsOf
  rw [List.map_append, List.map_append, List.map_append, List.map_append,
    List.map_append, List.map_append]
  rfl

theorem pairsOf_flipLastIfFaceDown (l : List Card) :
    pairsOf (flipLastIfFaceDown l) = pairsOf l := by
  cases hl : l.getLast? with
  | none => unfold flipLastIfFaceDown; rw [hl]
  | some c =>
    have hne : l ≠ [] := by
      intro h; subst h; simp at hl
    have hc : l.getLast hne = c := by
      have h2 := List.getLast?_eq_getLast l hne
      rw [hl] at h2; injection h2 with h3; exact h3.symm
    unfold flipLastIfFaceDown
    rw [hl]
    show pairsOf (if c.faceUp = true then l else l.dropLast ++ [flipCardUp c]) = pairsOf l
    split
    · rfl
    · conv_rhs => rw [← List.dropLast_append_getLast hne, hc]
      rw [pairsOf_append, pairsOf_append]
      congr 1
      unfold pairsOf
      simp [cardPair_flipCardUp]

theorem pairsOf_flatten_set (cols : List Pile) :
    ∀ (i : Nat) (c : Pile), i < cols.length →
      pairsOf ((cols.set i c).flatten) + pairsOf (cols.getD i []) =
        pairsOf cols.flatten + pairsOf c := by
  induction cols with
  | nil => intro i c h; simp at h
  | cons x xs ih =>
    intro i c h
    cases i with
    | zero =>
      simp only [List.set_cons_zero, List.flatten_cons, List.getD_cons_zero]
      rw [pairsOf_append, pairsOf_append]
      abel
    | succ i =>
      simp only [List.set_cons_succ, List.flatten_cons, List.getD_cons_succ]
      rw [pairsOf_append, pairsOf_append, add_assoc, add_assoc,
        ih i c (by simpa using h)]


theorem jsGet_eq_getElem {α : Type} (l : List α) (i : Int) (x : α)
    (h : jsGet l i = some x) : ¬ i < 0 ∧ i.toNat < l.length ∧ l[i.toNat]? = some x := by
  unfold jsGet at h
  split at h
  · exact absurd h (by simp)
  · next hneg =>
    refine ⟨hneg, ?_, h⟩
    exact (List.getElem?_eq_some_iff.1 h).1

theorem dropLast_append_getTop (l : List Card) (c : Card)
    (h : getTopCard l = some c) : l.dropLast ++ [c] = l := by
  unfold getTopCard at h
  have hne : l ≠ [] := by intro he; subst he; simp at h
  have h2 := List.getLast?_eq_getLast l hne
  rw [h] at h2; injection h2 with h3
  rw [h3]; exact List.dropLast_append_getLast hne

theorem getTopCard_none (l : List Card) (h : getTopCard l = none) : l = [] := by
  unfold getTopCard at h
  exact List.getLast?_eq_none_iff.1 h

theorem setFoundationPile_pairs (f : Foundations) (suit : Suit) (p : Pile) :
    pairsOf (setFoundationPile f suit p).hearts + pairsOf (setFoundationPile f suit p).diamonds +
      pairsOf (setFoundationPile f suit p).clubs + pairsOf (setFoundationPile f suit p).spades +
      pairsOf (getFoundationPile f suit)
    = pairsOf f.hearts + pairsOf f.diamonds + pairsOf f.clubs + pairsOf f.spades + pairsOf p := by
  cases suit <;> simp only [setFoundationPile, getFoundationPile] <;> abel

theorem removeCardsFromSource_cardMultiset (s : GameState) (mfrom mto : CardLocation)
    (mcc : Int) (run : List Card) (h : getCardsForMove s mfrom = some run) :
    cardMultiset (removeCardsFromSource s ⟨mfrom, mto, mcc⟩) + pairsOf run
      = cardMultiset s := by
  cases mfrom with
  | tableau ci idx =>
    cases hcol : jsGet s.tableau.columns ci with
    | none =>
      rw [show getCardsForMove s (CardLocation.tableau ci idx) = none by
        simp only [getCardsForMove, hcol]] at h
      exact Option.noConfusion h
    | some col =>
      simp only [getCardsForMove, hcol, Option.some.injEq] at h
      obtain ⟨hneg, hlt, hget⟩ := jsGet_eq_getElem _ _ _ hcol
      have hcolval : s.tableau.columns.getD ci.toNat [] = col := by
        have h9 := List.getElem?_eq_getElem hlt
        rw [h9, Option.some.injEq] at hget
        rw [List.getD_eq_getElem _ _ hlt, hget]
      have key : pairsOf (flipLastIfFaceDown (col.take (jsStartIndex col.length idx)))
          + pairsOf run = pairsOf col := by
        rw [pairsOf_flipLastIfFaceDown]
        split at h
        · next hle =>
          injection h with h5
          subst h5
          have h7 : jsStartIndex col.length idx = col.length := by
            unfold jsStartIndex
            rw [if_neg (show ¬ idx < 0 by omega)]
            omega
          rw [h7]
          simp [pairsOf]
        · next hgt =>
          injection h with h5
          subst h5
          unfold jsSliceFrom
          rw [← pairsOf_append, List.take_append_drop]
      have hset := pairsOf_flatten_set s.tableau.columns ci.toNat
        (flipLastIfFaceDown (col.take (jsStartIndex col.length idx))) hlt
      rw [hcolval] at hset
      have h6 : pairsOf ((s.tableau.columns.set ci.toNat
          (flipLastIfFaceDown (col.take (jsStartIndex col.length idx)))).flatten)
          + pairsOf run = pairsOf s.tableau.columns.flatten := by
        have h8 : pairsOf ((s.tableau.columns.set ci.toNat
            (flipLastIfFaceDown (col.take (jsStartIndex col.length idx)))).flatten)
            + pairsOf run + pairsOf col
            = pairsOf s.tableau.columns.flatten + pairsOf col := by
          calc pairsOf ((s.tableau.columns.set ci.toNat
                (flipLastIfFaceDown (col.take (jsStartIndex col.length idx)))).flatten)
                + pairsOf run + pairsOf col
              = pairsOf ((s.tableau.columns.set ci.toNat
                  (flipLastIfFaceDown (col.take (jsStartIndex col.length idx)))).flatten)
                + pairsOf col + pairsOf run := by abel
            _ = pairsOf s.tableau.columns.flatten +
                pairsOf (flipLastIfFaceDown (col.take (jsStartIndex col.length idx)))
                + pairsOf run := by rw [hset]
            _ = pairsOf s.tableau.columns.flatten +
                (pairsOf (flipLastIfFaceDown (col.take (jsStartIndex col.length idx)))
                + pairsOf run) := by abel
            _ = pairsOf s.tableau.columns.flatten + pairsOf col := by rw [key]
        exact add_right_cancel h8
      have hrm : removeCardsFromSource s ⟨CardLocation.tableau ci idx, mto, mcc⟩
          = { s with tableau := ⟨s.tableau.columns.set ci.toNat
              (flipLastIfFaceDown (col.take (jsStartIndex col.length idx)))⟩ } := by
        simp only [removeCardsFromSource, hcol]
      rw [hrm, cardMultiset_eq, cardMultiset_eq]
      show pairsOf ((s.tableau.columns.set ci.toNat
          (flipLastIfFaceDown (col.take (jsStartIndex col.length idx)))).flatten)
          + (pairsOf s.foundations.hearts + pairsOf s.foundations.diamonds +
            pairsOf s.foundations.clubs + pairsOf s.foundations.spades) +
          pairsOf s.stockAndWaste.stock + pairsOf s.stockAndWaste.waste + pairsOf run = _
      rw [← h6]
      abel
  | waste =>
    cases htop : getTopCard s.stockAndWaste.waste with
    | some top =>
      simp only [getCardsForMove, htop, Option.some.injEq] at h
      subst h
      have hd := dropLast_append_getTop _ _ htop
      show cardMultiset { s with stockAndWaste :=
          { s.stockAndWaste with waste := s.stockAndWaste.waste.dropLast } }
          + pairsOf [top] = cardMultiset s
      rw [cardMultiset_eq, cardMultiset_eq]
      show pairsOf s.tableau.columns.flatten +
          (pairsOf s.foundations.hearts + pairsOf s.foundations.diamonds +
            pairsOf s.foundations.clubs + pairsOf s.foundations.spades) +
          pairsOf s.stockAndWaste.stock + pairsOf s.stockAndWaste.waste.dropLast
          + pairsOf [top] = _
      have h7 : pairsOf s.stockAndWaste.waste.dropLast + pairsOf [top]
          = pairsOf s.stockAndWaste.waste := by
        rw [← pairsOf_append, hd]
      rw [← h7]
      abel
    | none =>
      simp only [getCardsForMove, htop, Option.some.injEq] at h
      subst h
      have h8 := getTopCard_none _ htop
      show cardMultiset { s with stockAndWaste :=
          { s.stockAndWaste with waste := s.stockAndWaste.waste.dropLast } }
          + pairsOf [] = cardMultiset s
      rw [h8]
      show cardMultiset { s with stockAndWaste :=
          { s.stockAndWaste with waste := [] } } + pairsOf [] = cardMultiset s
      rw [cardMultiset_eq, cardMultiset_eq, h8]
      show pairsOf s.tableau.columns.flatten +
          (pairsOf s.foundations.hearts + pairsOf s.foundations.diamonds +
            pairsOf s.foundations.clubs + pairsOf s.foundations.spades) +
          pairsOf s.stockAndWaste.stock + pairsOf [] + pairsOf [] = _
      simp [pairsOf]
  | foundation suit =>
    cases htop : getTopCard (getFoundationPile s.foundations suit) with
    | some top =>
      simp only [getCardsForMove, htop, Option.some.injEq] at h
      subst h
      have hd := dropLast_append_getTop _ _ htop
      have hrm : removeCardsFromSource s ⟨CardLocation.foundation suit, mto, mcc⟩
          = { s with foundations := (setFoundationPile s.foundations suit
              ((getFoundationPile s.foundations suit).dropLast)) } := by
        simp only [removeCardsFromSource]
      rw [hrm, cardMultiset_eq, cardMultiset_eq]
      show pairsOf s.tableau.columns.flatten +
          (pairsOf (setFoundationPile s.foundations suit
              (getFoundationPile s.foundations suit).dropLast).hearts +
            pairsOf (setFoundationPile s.foundations suit
              (getFoundationPile s.foundations suit).dropLast).diamonds +
            pairsOf (setFoundationPile s.foundations suit
              (getFoundationPile s.foundations suit).dropLast).clubs +
            pairsOf (setFoundationPile s.foundations suit
              (getFoundationPile s.foundations suit).dropLast).spades) +
          pairsOf s.stockAndWaste.stock + pairsOf s.stockAndWaste.waste + pairsOf [top] = _
      have hsp := setFoundationPile_pairs s.foundations suit
        (getFoundationPile s.foundations suit).dropLast
      have h7 : pairsOf (getFoundationPile s.foundations suit).dropLast + pairsOf [top]
          = pairsOf (getFoundationPile s.foundations suit) := by
        rw [← pairsOf_append, hd]
      have h8 : pairsOf (setFoundationPile s.foundations suit
            (getFoundationPile s.foundations suit).dropLast).hearts +
          pairsOf (setFoundationPile s.foundations suit
            (getFoundationPile s.foundations suit).dropLast).diamonds +
          pairsOf (setFoundationPile s.foundations suit
            (getFoundationPile s.foundations suit).dropLast).clubs +
          pairsOf (setFoundationPile s.foundations suit
            (getFoundationPile s.foundations suit).dropLast).spades + pairsOf [top] +
          pairsOf (getFoundationPile s.foundations suit)
          = pairsOf s.foundations.hearts + pairsOf s.foundations.diamonds +
            pairsOf s.foundations.clubs + pairsOf s.foundations.spades +
            pairsOf (getFoundationPile s.foundations suit) := by
        calc pairsOf (setFoundationPile s.foundations suit
              (getFoundationPile s.foundations suit).dropLast).hearts +
            pairsOf (setFoundationPile s.foundations suit
              (getFoundationPile s.foundations suit).dropLast).diamonds +
            pairsOf (setFoundationPile s.foundations suit
              (getFoundationPile s.foundations suit).dropLast).clubs +
            pairsOf (setFoundationPile s.foundations suit
              (getFoundationPile s.foundations suit).dropLast).spades + pairsOf [top] +
            pairsOf (getFoundationPile s.foundations suit)
            = pairsOf (setFoundationPile s.foundations suit
                (getFoundationPile s.foundations suit).dropLast).hearts +
              pairsOf (setFoundationPile s.foundations suit
                (getFoundationPile s.foundations suit).dropLast).diamonds +
              pairsOf (setFoundationPile s.foundations suit
                (getFoundationPile s.foundations suit).dropLast).clubs +
              pairsOf (setFoundationPile s.foundations suit
                (getFoundationPile s.foundations suit).dropLast).spades +
              pairsOf (getFoundationPile s.foundations suit) + pairsOf [top] := by abel
          _ = pairsOf s.foundations.hearts + pairsOf s.foundations.diamonds +
              pairsOf s.foundations.clubs + pairsOf s.foundations.spades +
              pairsOf (getFoundationPile s.foundations suit).dropLast + pairsOf [top] := by
                rw [hsp]
          _ = pairsOf s.foundations.hearts + pairsOf s.foundations.diamonds +
              pairsOf s.foundations.clubs + pairsOf s.foundations.spades +
              (pairsOf (getFoundationPile s.foundations suit).dropLast + pairsOf [top]) := by
                abel
          _ = _ := by rw [h7]
      have h9 := add_right_cancel h8
      calc pairsOf s.tableau.columns.flatten +
          (pairsOf (setFoundationPile s.foundations suit
              (getFoundationPile s.foundations suit).dropLast).hearts +
            pairsOf (setFoundationPile s.foundations suit
              (getFoundationPile s.foundations suit).dropLast).diamonds +
            pairsOf (setFoundationPile s.foundations suit
              (getFoundationPile s.foundations suit).dropLast).clubs +
            pairsOf (setFoundationPile s.foundations suit
              (getFoundationPile s.foundations suit).dropLast).spades) +
          pairsOf s.stockAndWaste.stock + pairsOf s.stockAndWaste.waste + pairsOf [top]
          = pairsOf (setFoundationPile s.foundations suit
              (getFoundationPile s.foundations suit).dropLast).hearts +
            pairsOf (setFoundationPile s.foundations suit
              (getFoundationPile s.foundations suit).dropLast).diamonds +
            pairsOf (setFoundationPile s.foundations suit
              (getFoundationPile s.foundations suit).dropLast).clubs +
            pairsOf (setFoundationPile s.foundations suit
              (getFoundationPile s.foundations suit).dropLast).spades + pairsOf [top] +
            (pairsOf s.tableau.columns.flatten +
              pairsOf s.stockAndWaste.stock + pairsOf s.stockAndWaste.waste) := by abel
        _ = pairsOf s.foundations.hearts + pairsOf s.foundations.diamonds +
            pairsOf s.foundations.clubs + pairsOf s.foundations.spades +
            (pairsOf s.tableau.columns.flatten +
              pairsOf s.stockAndWaste.stock + pairsOf s.stockAndWaste.waste) := by rw [h9]
        _ = _ := by abel
    | none =>
      simp only [getCardsForMove, htop, Option.some.injEq] at h
      subst h
      have h8 : getFoundationPile s.foundations suit = [] := getTopCard_none _ htop
      have hrm : removeCardsFromSource s ⟨CardLocation.foundation suit, mto, mcc⟩
          = { s with foundations := (setFoundationPile s.foundations suit
              ((getFoundationPile s.foundations suit).dropLast)) } := by
        simp only [removeCardsFromSource]
      rw [hrm, cardMultiset_eq, cardMultiset_eq]
      show pairsOf s.tableau.columns.flatten +
          (pairsOf (setFoundationPile s.foundations suit
              ((getFoundationPile s.foundations suit).dropLast)).hearts +
            pairsOf (setFoundationPile s.foundations suit
              ((getFoundationPile s.foundations suit).dropLast)).diamonds +
            pairsOf (setFoundationPile s.foundations suit
              ((getFoundationPile s.foundations suit).dropLast)).clubs +
            pairsOf (setFoundationPile s.foundations suit
              ((getFoundationPile s.foundations suit).dropLast)).spades) +
          pairsOf s.stockAndWaste.stock + pairsOf s.stockAndWaste.waste + pairsOf [] = _
      have hsp := setFoundationPile_pairs s.foundations suit
        ((getFoundationPile s.foundations suit).dropLast)
      rw [h8, List.dropLast_nil] at hsp ⊢
      have h9 := add_right_cancel hsp
      rw [show pairsOf ([] : List Card) = 0 from rfl, h9]
      abel
  | stock =>
    simp only [getCardsForMove, Option.some.injEq] at h
    subst h
    show cardMultiset s + pairsOf [] = cardMultiset s
    simp [pairsOf]


theorem jsGet_of_bounds {α : Type} (l : List α) (i : Int) (hneg : ¬ i < 0)
    (hlt : i.toNat < l.length) : jsGet l i = some l[i.toNat] := by
  unfold jsGet
  rw [if_neg hneg]
  exact List.getElem?_eq_getElem hlt

theorem addCardsToDestination_cardMultiset (s : GameState) (dest : CardLocation)
    (cards : List Card) (hok : destColumnOk s dest) :
    cardMultiset (addCardsToDestination s dest cards) = cardMultiset s + pairsOf cards := by
  cases dest with
  | tableau ci idx =>
    obtain ⟨hneg, hlt⟩ := hok
    have hcol := jsGet_of_bounds s.tableau.columns ci hneg hlt
    have hadd : addCardsToDestination s (CardLocation.tableau ci idx) cards
        = { s with tableau := ⟨s.tableau.columns.set ci.toNat
            (s.tableau.columns[ci.toNat] ++ cards)⟩ } := by
      simp only [addCardsToDestination, hcol]
    rw [hadd, cardMultiset_eq, cardMultiset_eq]
    show pairsOf ((s.tableau.columns.set ci.toNat
          (s.tableau.columns[ci.toNat] ++ cards)).flatten) +
        (pairsOf s.foundations.hearts + pairsOf s.foundations.diamonds +
          pairsOf s.foundations.clubs + pairsOf s.foundations.spades) +
        pairsOf s.stockAndWaste.stock + pairsOf s.stockAndWaste.waste = _
    have hset := pairsOf_flatten_set s.tableau.columns ci.toNat
      (s.tableau.columns[ci.toNat] ++ cards) hlt
    rw [List.getD_eq_getElem _ _ hlt, pairsOf_append] at hset
    have h9 : pairsOf ((s.tableau.columns.set ci.toNat
        (s.tableau.columns[ci.toNat] ++ cards)).flatten)
        = pairsOf s.tableau.columns.flatten + pairsOf cards := by
      have h8 : pairsOf ((s.tableau.columns.set ci.toNat
          (s.tableau.columns[ci.toNat] ++ cards)).flatten) + pairsOf s.tableau.columns[ci.toNat]
          = pairsOf s.tableau.columns.flatten + pairsOf cards
            + pairsOf s.tableau.columns[ci.toNat] := by
        rw [hset]; abel
      exact add_right_cancel h8
    rw [h9]; abel
  | foundation suit =>
    have hadd : addCardsToDestination s (CardLocation.foundation suit) cards
        = { s with foundations := (setFoundationPile s.foundations suit
            (getFoundationPile s.foundations suit ++ cards)) } := by
      simp only [addCardsToDestination]
    rw [hadd, cardMultiset_eq, cardMultiset_eq]
    show pairsOf s.tableau.columns.flatten +
        (pairsOf (setFoundationPile s.foundations suit
            (getFoundationPile s.foundations suit ++ cards)).hearts +
          pairsOf (setFoundationPile s.foundations suit
            (getFoundationPile s.foundations suit ++ cards)).diamonds +
          pairsOf (setFoundationPile s.foundations suit
            (getFoundationPile s.foundations suit ++ cards)).clubs +
          pairsOf (setFoundationPile s.foundations suit
            (getFoundationPile s.foundations suit ++ cards)).spades) +
        pairsOf s.stockAndWaste.stock + pairsOf s.stockAndWaste.waste = _
    have hsp := setFoundationPile_pairs s.foundations suit
      (getFoundationPile s.foundations suit ++ cards)
    rw [pairsOf_append] at hsp
    have h9 : pairsOf (setFoundationPile s.foundations suit
          (getFoundationPile s.foundations suit ++ cards)).hearts +
        pairsOf (setFoundationPile s.foundations suit
          (getFoundationPile s.foundations suit ++ cards)).diamonds +
        pairsOf (setFoundationPile s.foundations suit
          (getFoundationPile s.foundations suit ++ cards)).clubs +
        pairsOf (setFoundationPile s.foundations suit
          (getFoundationPile s.foundations suit ++ cards)).spades
        = pairsOf s.foundations.hearts + pairsOf s.foundations.diamonds +
          pairsOf s.foundations.clubs + pairsOf s.foundations.spades + pairsOf cards := by
      have h8 : pairsOf (setFoundationPile s.foundations suit
            (getFoundationPile s.foundations suit ++ cards)).hearts +
          pairsOf (setFoundationPile s.foundations suit
            (getFoundationPile s.foundations suit ++ cards)).diamonds +
          pairsOf (setFoundationPile s.foundations suit
            (getFoundationPile s.foundations suit ++ cards)).clubs +
          pairsOf (setFoundationPile s.foundations suit
            (getFoundationPile s.foundations suit ++ cards)).spades
          + pairsOf (getFoundationPile s.foundations suit)
          = pairsOf s.foundations.hearts + pairsOf s.foundations.diamonds +
            pairsOf s.foundations.clubs + pairsOf s.foundations.spades + pairsOf cards
            + pairsOf (getFoundationPile s.foundations suit) := by
        rw [hsp]; abel
      exact add_right_cancel h8
    rw [h9]; abel
  | stock => exact absurd hok (by simp [destColumnOk])
  | waste => exact absurd hok (by simp [destColumnOk])


theorem validateMove_sourceRun (s : GameState) (m : Move)
    (hv : validateMove s m = some (Result.success true)) :
    ∃ c rest, getCardsForMove s m.from' = some (c :: rest) := by
  unfold validateMove at hv
  cases hrun : getCardsForMove s m.from' with
  | none => rw [hrun] at hv; exact Option.noConfusion hv
  | some run =>
    rw [hrun] at hv
    cases run with
    | nil => exact absurd hv (by simp)
    | cons c rest => exact ⟨c, rest, rfl⟩

theorem validateMove_destOk (s : GameState) (m : Move)
    (hv : validateMove s m = some (Result.success true)) :
    destColumnOk s m.to' := by
  unfold validateMove at hv
  cases hrun : getCardsForMove s m.from' with
  | none => rw [hrun] at hv; exact Option.noConfusion hv
  | some run =>
    rw [hrun] at hv
    cases run with
    | nil => exact absurd hv (by simp)
    | cons c rest =>
      cases hto : m.to' with
      | tableau ci idx =>
        rw [hto] at hv
        simp only [] at hv
        cases hcol : jsGet s.tableau.columns ci with
        | none => rw [hcol] at hv; exact Option.noConfusion hv
        | some col =>
          obtain ⟨hneg, hlt, _⟩ := jsGet_eq_getElem _ _ _ hcol
          exact ⟨hneg, hlt⟩
      | foundation suit => trivial
      | stock => rw [hto] at hv; exact absurd hv (by simp)
      | waste => rw [hto] at hv; exact absurd hv (by simp)

theorem removeCardsFromSource_columns_length (s : GameState) (m : Move) :
    (removeCardsFromSource s m).tableau.columns.length = s.tableau.columns.length := by
  unfold removeCardsFromSource
  cases m.from' with
  | tableau ci idx =>
    cases hcol : jsGet s.tableau.columns ci <;> simp [hcol]
  | waste => rfl
  | foundation suit => rfl
  | stock => rfl

theorem destColumnOk_remove (s : GameState) (m : Move) (dest : CardLocation)
    (h : destColumnOk s dest) : destColumnOk (removeCardsFromSource s m) dest := by
  cases dest with
  | tableau ci idx =>
    obtain ⟨hneg, hlt⟩ := h
    exact ⟨hneg, by rw [removeCardsFromSource_columns_length]; exact hlt⟩
  | foundation suit => trivial
  | stock => exact h
  | waste => exact h

theorem cardMultiset_stats_update (s : GameState) (st : GameStats) (w : Bool) :
    cardMultiset { s with stats := st, isWon := w } = cardMultiset s := rfl

theorem validateMove_ok_true (s : GameState) (m : Move) (b : Bool)
    (hv : validateMove s m = some (Result.success b)) : b = true := by
  unfold validateMove at hv
  cases hrun : getCardsForMove s m.from' with
  | none => rw [hrun] at hv; exact Option.noConfusion hv
  | some run =>
    rw [hrun] at hv
    cases run with
    | nil => exact absurd hv (by simp)
    | cons c rest =>
      cases hto : m.to' with
      | tableau ci idx =>
        rw [hto] at hv
        simp only [] at hv
        cases hcol : jsGet s.tableau.columns ci with
        | none => rw [hcol] at hv; exact Option.noConfusion hv
        | some col =>
          simp only [hcol] at hv
          split at hv
          · split at hv
            · injection hv with h5; injection h5 with h6; exact h6.symm
            · exact absurd hv (by simp)
          · split at hv
            · injection hv with h5; injection h5 with h6; exact h6.symm
            · exact absurd hv (by simp)
      | foundation suit =>
        rw [hto] at hv
        simp only [] at hv
        split at hv
        · exact absurd hv (by simp)
        · split at hv
          · injection hv with h5; injection h5 with h6; exact h6.symm
          · exact absurd hv (by simp)
      | stock => rw [hto] at hv; simp_all
      | waste => rw [hto] at hv; simp_all


theorem applyMove_elim (s : GameState) (m : Move) (s' : GameState)
    (h : applyMove s m = some (Result.success s')) :
    validateMove s m = some (Result.success true) ∧
    ∃ run, getCardsForMove s m.from' = some run ∧ run ≠ [] ∧
      s' = (let s2 := addCardsToDestination (removeCardsFromSource s m) m.to' run
        { s2 with
          stats := { s2.stats with moves := s2.stats.moves + 1 }
          isWon := checkWinCondition s2 }) := by
  cases hv : validateMove s m with
  | none =>
    simp only [applyMove, hv] at h
    exact Option.noConfusion h
  | some v =>
    cases v with
    | failure e =>
      simp only [applyMove, hv] at h
      exact absurd h (by simp)
    | success b =>
      have hb : b = true := validateMove_ok_true s m b hv
      subst hb
      cases hrun : getCardsForMove s m.from' with
      | none =>
        simp only [applyMove, hv, hrun] at h
        exact Option.noConfusion h
      | some run =>
        simp only [applyMove, hv, hrun] at h
        split at h
        · exact absurd h (by simp)
        · next hemp =>
          simp only [Option.some.injEq, Result.success.injEq] at h
          refine ⟨rfl, run, rfl, ?_, h.symm⟩
          intro hrun0
          subst hrun0
          simp at hemp


theorem applyMove_cardMultiset (s : GameState) (m : Move) (s' : GameState)
    (h : applyMove s m = some (Result.success s')) :
    cardMultiset s' = cardMultiset s := by
  obtain ⟨mf, mt, mc⟩ := m
  obtain ⟨hv, run, hrun, _, hs'⟩ := applyMove_elim s ⟨mf, mt, mc⟩ s' h
  subst hs'
  have hdest2 := destColumnOk_remove s ⟨mf, mt, mc⟩ mt
    (validateMove_destOk s ⟨mf, mt, mc⟩ hv)
  have hadd := addCardsToDestination_cardMultiset
    (removeCardsFromSource s ⟨mf, mt, mc⟩) mt run hdest2
  have hrem := removeCardsFromSource_cardMultiset s mf mt mc run hrun
  show cardMultiset (addCardsToDestination (removeCardsFromSource s ⟨mf, mt, mc⟩) mt run)
      = cardMultiset s
  rw [hadd]
  exact hrem

theorem pairsOf_reverse (l : List Card) : pairsOf l.reverse = pairsOf l := by
  unfold pairsOf
  rw [List.map_reverse]
  exact Multiset.coe_reverse (l.map cardPair)

theorem pairsOf_map_flipCardUp (l : List Card) : pairsOf (l.map flipCardUp) = pairsOf l := by
  unfold pairsOf
  rw [List.map_map]
  congr 1
  have hfn : cardPair ∘ flipCardUp = cardPair := funext fun c => cardPair_flipCardUp c
  rw [hfn]

theorem drawFromStock_cardMultiset (s : GameState) (count : Int) :
    cardMultiset (drawFromStock s count) = cardMultiset s := by
  unfold drawFromStock
  dsimp only
  split
  · next hstock =>
    split
    · rfl
    · next hwaste =>
      have hs0 : s.stockAndWaste.stock = [] := List.length_eq_zero.1 hstock
      rw [cardMultiset_eq, cardMultiset_eq]
      show pairsOf s.tableau.columns.flatten +
          (pairsOf s.foundations.hearts + pairsOf s.foundations.diamonds +
            pairsOf s.foundations.clubs + pairsOf s.foundations.spades) +
          pairsOf ((s.stockAndWaste.waste.map (fun card =>
            if card.faceUp then { card with faceUp := false } else card)).reverse) +
          pairsOf [] = _
      rw [hs0, pairsOf_reverse]
      have hfl : pairsOf (s.stockAndWaste.waste.map (fun card =>
          if card.faceUp then { card with faceUp := false } else card))
          = pairsOf s.stockAndWaste.waste := by
        unfold pairsOf
        rw [List.map_map]
        congr 1
        have hfn : cardPair ∘ (fun card : Card =>
            if card.faceUp then { card with faceUp := false } else card) = cardPair := by
          funext c
          show cardPair (if c.faceUp then { c with faceUp := false } else c) = cardPair c
          unfold cardPair; split <;> rfl
        rw [hfn]
      rw [hfl]
      show _ = pairsOf s.tableau.columns.flatten +
          (pairsOf s.foundations.hearts + pairsOf s.foundations.diamonds +
            pairsOf s.foundations.clubs + pairsOf s.foundations.spades) +
          pairsOf ([] : List Card) + pairsOf s.stockAndWaste.waste
      abel
  · next hstock =>
    rw [cardMultiset_eq, cardMultiset_eq]
    show pairsOf s.tableau.columns.flatten +
        (pairsOf s.foundations.hearts + pairsOf s.foundations.diamonds +
          pairsOf s.foundations.clubs + pairsOf s.foundations.spades) +
        pairsOf (jsSliceUpTo s.stockAndWaste.stock
          (-(min count (s.stockAndWaste.stock.length : Int)))) +
        pairsOf (s.stockAndWaste.waste ++
          ((jsSliceFrom s.stockAndWaste.stock
            (-(min count (s.stockAndWaste.stock.length : Int)))).map flipCardUp).reverse) = _
    rw [pairsOf_append, pairsOf_reverse, pairsOf_map_flipCardUp]
    unfold jsSliceUpTo jsSliceFrom
    have htd : pairsOf (s.stockAndWaste.stock.take (jsStartIndex s.stockAndWaste.stock.length
          (-(min count (s.stockAndWaste.stock.length : Int))))) +
        pairsOf (s.stockAndWaste.stock.drop (jsStartIndex s.stockAndWaste.stock.length
          (-(min count (s.stockAndWaste.stock.length : Int)))))
        = pairsOf s.stockAndWaste.stock := by
      rw [← pairsOf_append, List.take_append_drop]
    calc pairsOf s.tableau.columns.flatten +
        (pairsOf s.foundations.hearts + pairsOf s.foundations.diamonds +
          pairsOf s.foundations.clubs + pairsOf s.foundations.spades) +
        pairsOf (s.stockAndWaste.stock.take (jsStartIndex s.stockAndWaste.stock.length
          (-(min count (s.stockAndWaste.stock.length : Int))))) +
        (pairsOf s.stockAndWaste.waste +
          pairsOf (s.stockAndWaste.stock.drop (jsStartIndex s.stockAndWaste.stock.length
            (-(min count (s.stockAndWaste.stock.length : Int))))))
        = pairsOf s.tableau.columns.flatten +
          (pairsOf s.foundations.hearts + pairsOf s.foundations.diamonds +
            pairsOf s.foundations.clubs + pairsOf s.foundations.spades) +
          (pairsOf (s.stockAndWaste.stock.take (jsStartIndex s.stockAndWaste.stock.length
            (-(min count (s.stockAndWaste.stock.length : Int))))) +
          pairsOf (s.stockAndWaste.stock.drop (jsStartIndex s.stockAndWaste.stock.length
            (-(min count (s.stockAndWaste.stock.length : Int)))))) +
          pairsOf s.stockAndWaste.waste := by abel
      _ = _ := by rw [htd]


theorem standardDeck_nodup : standardDeck.Nodup := by decide

/-- C1: for every seed, `dealGame` yields a state whose cards across
tableau, foundations, stock and waste form exactly the standard 52-card
multiset of (suit, rank) pairs with no duplicate pair; and every
successful `applyMove` and every `drawFromStock` (with any count)
preserves the multiset of cards, hence the property. -/
theorem claim_c1_conservation :
    (∀ (seed now : Int), cardMultiset (dealGame seed now) = standardDeck ∧
      (cardMultiset (dealGame seed now)).Nodup) ∧
    (∀ (s : GameState) (m : Move) (s' : GameState),
      applyMove s m = some (Result.success s') → cardMultiset s' = cardMultiset s) ∧
    (∀ (s : GameState) (count : Int),
      cardMultiset (drawFromStock s count) = cardMultiset s) := by
  refine ⟨fun seed now => ⟨dealGame_cardMultiset seed now, ?_⟩,
    applyMove_cardMultiset, drawFromStock_cardMultiset⟩
  rw [dealGame_cardMultiset]
  exact standardDeck_nodup

set_option maxRecDepth 8000 in
/-- Witness for C1 at seed 42 and a concrete Ace-to-foundation move. -/
theorem claim_c1_conservation_witness :
    cardMultiset (dealGame 42 0) = standardDeck ∧
    applyMove c1WitnessState c1WitnessMove = some (Result.success c1WitnessResult) ∧
    cardMultiset c1WitnessResult = cardMultiset c1WitnessState ∧
    cardMultiset (drawFromStock c1WitnessState 3) = cardMultiset c1WitnessState :=
  ⟨(claim_c1_conservation.1 42 0).1,
   by decide,
   claim_c1_conservation.2.1 c1WitnessState c1WitnessMove c1WitnessResult (by decide),
   claim_c1_conservation.2.2 c1WitnessState 3⟩

/-- C9: dealing twice with the same seed yields identical states except
for `stats.startTime` (which copies the wall-clock input): the tableau
and stock sequences agree in suit, rank, order and face orientation. -/
theorem claim_c9_determinism (seed t1 t2 : Int) :
    dealGame seed t1 = { dealGame seed t2 with
      stats := { (dealGame seed t2).stats with startTime := t1 } } := rfl

/-- C10: two moves identical except for `cardCount`, aimed at a tableau
destination, get the same answer from `validateMove` and from
`applyMove`: the cards moved are determined by the source location
alone, and `cardCount` is consulted only by the foundation rule. -/
theorem claim_c10_cardCount (s : GameState) (src dst : CardLocation) (cc1 cc2 : Int)
    (h : ∃ ci idx, dst = CardLocation.tableau ci idx) :
    validateMove s ⟨src, dst, cc1⟩ = validateMove s ⟨src, dst, cc2⟩ ∧
    applyMove s ⟨src, dst, cc1⟩ = applyMove s ⟨src, dst, cc2⟩ := by
  obtain ⟨ci, idx, rfl⟩ := h
  exact ⟨rfl, rfl⟩

/-- Witness for C10 at a concrete state and tableau destination. -/
theorem claim_c10_cardCount_witness :
    (∃ ci idx, CardLocation.tableau 1 0 = CardLocation.tableau ci idx) ∧
    validateMove c3State ⟨CardLocation.tableau 0 0, CardLocation.tableau 1 0, 1⟩
      = validateMove c3State ⟨CardLocation.tableau 0 0, CardLocation.tableau 1 0, 7⟩ ∧
    applyMove c3State ⟨CardLocation.tableau 0 0, CardLocation.tableau 1 0, 1⟩
      = applyMove c3State ⟨CardLocation.tableau 0 0, CardLocation.tableau 1 0, 7⟩ :=
  ⟨⟨1, 0, rfl⟩,
   (claim_c10_cardCount c3State (CardLocation.tableau 0 0) (CardLocation.tableau 1 0)
     1 7 ⟨1, 0, rfl⟩).1,
   (claim_c10_cardCount c3State (CardLocation.tableau 0 0) (CardLocation.tableau 1 0)
     1 7 ⟨1, 0, rfl⟩).2⟩

/-- C7: after `push`, `undo` is available and restores the old `present`;
`redo` on that result is available and restores the pushed state. -/
theorem claim_c7_history (h : HistoryState) (s : GameState) :
    ∃ h1, undoHistory (pushToHistory h s) = some h1 ∧ h1.present = h.present ∧
      ∃ h2, redoHistory h1 = some h2 ∧ h2.present = s := by
  have hlast : (pushToHistory h s).past.getLast? = some h.present := by
    unfold pushToHistory
    dsimp only
    split
    · next hlen =>
      unfold jsSliceFrom
      have hk : jsStartIndex (h.past ++ [h.present]).length (-(MAX_HISTORY_LENGTH : Int))
          ≤ h.past.length := by
        unfold jsStartIndex
        simp only [List.length_append, List.length_singleton] at hlen ⊢
        split <;> omega
      rw [List.drop_append_of_le_length hk]
      exact List.getLast?_concat _
    · exact List.getLast?_concat _
  cases hu : undoHistory (pushToHistory h s) with
  | none =>
    unfold undoHistory at hu
    rw [hlast] at hu
    exact Option.noConfusion hu
  | some h1 =>
    unfold undoHistory at hu
    rw [hlast] at hu
    injection hu with hu1
    refine ⟨h1, rfl, ?_, ?_⟩
    · rw [← hu1]
    · refine ⟨⟨h1.past ++ [h1.present], s, []⟩, ?_, rfl⟩
      have hfut : h1.future = s :: [] := by
        rw [← hu1]
        rfl
      unfold redoHistory
      rw [hfut]

/-- C4 counterexample: with a non-empty stock and requested count 0, the
claim says min(0, stock.length) = 0 cards are removed, i.e. the stock is
unchanged; the code's `stock.slice(-0)` is `stock.slice(0)`, so the
whole stock is moved to the waste. -/
theorem claim_c4_counterexample :
    (drawFromStock c4State 0).stockAndWaste.stock ≠ c4State.stockAndWaste.stock ∧
    (drawFromStock c4State 0).stockAndWaste.stock.length = 0 ∧
    c4State.stockAndWaste.stock.length = 2 := by decide

/-- C4 (amended): the empty-empty case returns the state unchanged; the
recycle case flips every waste card face-down and reverses the sequence
into the new stock, emptying the waste; and for every count ≥ 1 with a
non-empty stock, exactly min(count, stock.length) cards are removed from
the stock's tail and appended to the waste face-up in reversed order. -/
theorem claim_c4_drawFromStock (s : GameState) (count : Int) :
    (s.stockAndWaste.stock = [] → s.stockAndWaste.waste = [] →
      drawFromStock s count = s) ∧
    (s.stockAndWaste.stock = [] → s.stockAndWaste.waste ≠ [] →
      (drawFromStock s count).stockAndWaste.stock
          = (s.stockAndWaste.waste.map flipCardDown).reverse ∧
        (drawFromStock s count).stockAndWaste.waste = []) ∧
    (s.stockAndWaste.stock ≠ [] → 1 ≤ count →
      (drawFromStock s count).stockAndWaste.stock
          = s.stockAndWaste.stock.take
              (s.stockAndWaste.stock.length
                - (min count (s.stockAndWaste.stock.length : Int)).toNat) ∧
        (drawFromStock s count).stockAndWaste.waste
          = s.stockAndWaste.waste ++
              ((s.stockAndWaste.stock.drop
                  (s.stockAndWaste.stock.length
                    - (min count (s.stockAndWaste.stock.length : Int)).toNat)).map
                flipCardUp).reverse ∧
        (min count (s.stockAndWaste.stock.length : Int)).toNat
          = min count.toNat s.stockAndWaste.stock.length) := by
  refine ⟨?_, ?_, ?_⟩
  · intro hs hw
    unfold drawFromStock
    rw [hs, hw]
    rfl
  · intro hs hw
    have hw0 : ¬ s.stockAndWaste.waste.length = 0 :=
      fun h0 => hw (List.length_eq_zero.1 h0)
    have h1 : drawFromStock s count
        = { s with stockAndWaste :=
            ⟨(s.stockAndWaste.waste.map flipCardDown).reverse, []⟩ } := by
      unfold drawFromStock
      rw [hs]
      simp only [List.length_nil, if_true, if_neg hw0]
      rfl
    rw [h1]
    exact ⟨rfl, rfl⟩
  · intro hs hcnt
    have hs0 : ¬ s.stockAndWaste.stock.length = 0 :=
      fun h0 => hs (List.length_eq_zero.1 h0)
    have h1 : drawFromStock s count
        = { s with stockAndWaste :=
            ⟨jsSliceUpTo s.stockAndWaste.stock
                (-(min count (s.stockAndWaste.stock.length : Int))),
              s.stockAndWaste.waste ++
                ((jsSliceFrom s.stockAndWaste.stock
                  (-(min count (s.stockAndWaste.stock.length : Int)))).map
                  flipCardUp).reverse⟩ } := by
      unfold drawFromStock
      rw [if_neg hs0]
    have hidx : jsStartIndex s.stockAndWaste.stock.length
        (-(min count (s.stockAndWaste.stock.length : Int)))
        = s.stockAndWaste.stock.length
          - (min count (s.stockAndWaste.stock.length : Int)).toNat := by
      unfold jsStartIndex
      have hlen0 : 0 < s.stockAndWaste.stock.length := Nat.pos_of_ne_zero hs0
      split <;> omega
    rw [h1]
    refine ⟨?_, ?_, ?_⟩
    · show jsSliceUpTo s.stockAndWaste.stock
          (-(min count (s.stockAndWaste.stock.length : Int))) = _
      unfold jsSliceUpTo
      rw [hidx]
    · show s.stockAndWaste.waste ++
          ((jsSliceFrom s.stockAndWaste.stock
            (-(min count (s.stockAndWaste.stock.length : Int)))).map
            flipCardUp).reverse = _
      unfold jsSliceFrom
      rw [hidx]
    · omega

/-- Witness for C4's amended statement: one concrete state per branch
(empty-empty no-op, recycle, and a draw of one card from a two-card
stock). -/
theorem claim_c4_drawFromStock_witness :
    drawFromStock c4EmptyState 1 = c4EmptyState ∧
    ((drawFromStock c4RecycleState 5).stockAndWaste.stock
        = (c4RecycleState.stockAndWaste.waste.map flipCardDown).reverse ∧
      (drawFromStock c4RecycleState 5).stockAndWaste.waste = []) ∧
    ((drawFromStock c4State 1).stockAndWaste.stock
        = c4State.stockAndWaste.stock.take
            (c4State.stockAndWaste.stock.length
              - (min 1 (c4State.stockAndWaste.stock.length : Int)).toNat) ∧
      (drawFromStock c4State 1).stockAndWaste.waste
        = c4State.stockAndWaste.waste ++
            ((c4State.stockAndWaste.stock.drop
                (c4State.stockAndWaste.stock.length
                  - (min 1 (c4State.stockAndWaste.stock.length : Int)).toNat)).map
              flipCardUp).reverse ∧
      (min 1 (c4State.stockAndWaste.stock.length : Int)).toNat
        = min (1 : Int).toNat c4State.stockAndWaste.stock.length) :=
  ⟨(claim_c4_drawFromStock c4EmptyState 1).1 rfl rfl,
   (claim_c4_drawFromStock c4RecycleState 5).2.1 rfl (by decide),
   (claim_c4_drawFromStock c4State 1).2.2 (by decide) (by decide)⟩

/-- C5 counterexample: a move whose source tableau `columnIndex` is 7
(outside 0..6) makes `validateMove` read `column.length` on `undefined`,
a thrown TypeError (modelled as `none`), not a typed ok/error result. -/
theorem claim_c5_counterexample :
    validateMove (dealGame 0 0)
      ⟨CardLocation.tableau 7 0, CardLocation.tableau 0 0, 1⟩ = none := by decide

/-- C5 (amended): `validateMove` returns a typed ok or error result and
has no side effects for every move whose tableau column indices (source
and destination) are within the state's columns; an out-of-range tableau
`cardIndex` is handled gracefully (empty run, typed error), but an
out-of-range tableau `columnIndex` throws. -/
theorem claim_c5_total (s : GameState) (m : Move)
    (hf : tableauIndexOk s m.from') (ht : tableauIndexOk s m.to') :
    (validateMove s m).isSome := by
  obtain ⟨mf, mt, mc⟩ := m
  have hsrc : ∃ run, getCardsForMove s mf = some run := by
    cases mf with
    | tableau ci idx =>
      obtain ⟨hneg, hlt⟩ := hf
      simp only [getCardsForMove, jsGet_of_bounds _ _ hneg hlt]
      split <;> exact ⟨_, rfl⟩
    | waste =>
      simp only [getCardsForMove]
      cases getTopCard s.stockAndWaste.waste <;> exact ⟨_, rfl⟩
    | foundation suit =>
      simp only [getCardsForMove]
      cases getTopCard (getFoundationPile s.foundations suit) <;> exact ⟨_, rfl⟩
    | stock => exact ⟨[], rfl⟩
  obtain ⟨run, hrun⟩ := hsrc
  cases run with
  | nil => simp [validateMove, hrun]
  | cons c rest =>
    simp only [validateMove, hrun]
    cases mt with
    | tableau ci2 idx2 =>
      obtain ⟨hneg2, hlt2⟩ := ht
      simp only [jsGet_of_bounds _ _ hneg2 hlt2]
      cases getTopCard s.tableau.columns[ci2.toNat] <;> (dsimp only; split <;> simp)
    | foundation suit =>
      dsimp only
      split
      · simp
      · split <;> simp
    | stock => simp
    | waste => simp

/-- Witness for C5's amended statement at a concrete state and move. -/
theorem claim_c5_total_witness :
    tableauIndexOk (dealGame 0 0) CardLocation.waste ∧
    tableauIndexOk (dealGame 0 0) CardLocation.stock ∧
    (validateMove (dealGame 0 0) ⟨CardLocation.waste, CardLocation.stock, 1⟩).isSome :=
  ⟨trivial, trivial,
   claim_c5_total (dealGame 0 0) ⟨CardLocation.waste, CardLocation.stock, 1⟩
     trivial trivial⟩

theorem removeCardsFromSource_stats (s : GameState) (m : Move) :
    (removeCardsFromSource s m).stats = s.stats := by
  obtain ⟨mf, mt, mc⟩ := m
  cases mf with
  | tableau ci idx =>
    cases hcol : jsGet s.tableau.columns ci <;>
      simp only [removeCardsFromSource, hcol]
  | waste => rfl
  | foundation suit => rfl
  | stock => rfl

theorem addCardsToDestination_stats (s : GameState) (dest : CardLocation)
    (cards : List Card) : (addCardsToDestination s dest cards).stats = s.stats := by
  cases dest with
  | tableau ci idx =>
    cases hcol : jsGet s.tableau.columns ci <;>
      simp only [addCardsToDestination, hcol]
  | foundation suit => rfl
  | stock => rfl
  | waste => rfl

/-- C3: whenever validation accepts a move, `applyMove` succeeds; the
result is the composite of removing the run from the source (tableau
truncation with auto-flip of the uncovered card, or dropping the top of
waste/foundation) and appending it in order to the destination, with
`stats.moves` exactly one greater and `isWon` equal to the win predicate
on the resulting state. -/
theorem claim_c3_applyMove (s : GameState) (m : Move)
    (hv : validateMove s m = some (Result.success true)) :
    ∃ run s', getCardsForMove s m.from' = some run ∧ run ≠ [] ∧
      applyMove s m = some (Result.success s') ∧
      s' = (let s2 := addCardsToDestination (removeCardsFromSource s m) m.to' run
        { s2 with
          stats := { s2.stats with moves := s2.stats.moves + 1 }
          isWon := checkWinCondition s2 }) ∧
      s'.stats.moves = s.stats.moves + 1 ∧
      s'.isWon = checkWinCondition s' := by
  obtain ⟨c, rest, hrun⟩ := validateMove_sourceRun s m hv
  refine ⟨c :: rest, _, hrun, by simp, ?_, rfl, ?_, ?_⟩
  · simp only [applyMove, hv, hrun, List.isEmpty_cons, Bool.false_eq_true, if_false]
  · show (addCardsToDestination (removeCardsFromSource s m) m.to' (c :: rest)).stats.moves + 1
        = s.stats.moves + 1
    rw [addCardsToDestination_stats, removeCardsFromSource_stats]
  · rfl

/-- Witness for C3 at a concrete state: a King moved onto an empty
column. -/
theorem claim_c3_applyMove_witness :
    validateMove c3State c3Move = some (Result.success true) ∧
    (∃ run s', getCardsForMove c3State c3Move.from' = some run ∧ run ≠ [] ∧
      applyMove c3State c3Move = some (Result.success s') ∧
      s' = (let s2 := addCardsToDestination (removeCardsFromSource c3State c3Move) c3Move.to' run
        { s2 with
          stats := { s2.stats with moves := s2.stats.moves + 1 }
          isWon := checkWinCondition s2 }) ∧
      s'.stats.moves = c3State.stats.moves + 1 ∧
      s'.isWon = checkWinCondition s') :=
  ⟨by decide, claim_c3_applyMove c3State c3Move (by decide)⟩

/-- C2: `validateMove` answers ok exactly according to the spec's rules
(non-empty source run; King-to-empty-column or opposite color and one
rank lower for tableau; single card, matching suit, Ace-to-empty or
next-rank-up for foundation; stock and waste never legal destinations). -/
theorem claim_c2_validateMove (s : GameState) (m : Move) :
    validateMove s m = some (Result.success true) ↔ claimLegalMove s m := by
  constructor
  · intro hv
    obtain ⟨c, rest, hrun⟩ := validateMove_sourceRun s m hv
    refine ⟨c, rest, hrun, ?_⟩
    simp only [validateMove, hrun] at hv
    cases hto : m.to' with
    | tableau ci idx =>
      rw [hto] at hv
      simp only [] at hv
      cases hcol : jsGet s.tableau.columns ci with
      | none => rw [hcol] at hv; exact Option.noConfusion hv
      | some col =>
        simp only [hcol] at hv
        refine ⟨col, hcol, ?_⟩
        cases htc : getTopCard col with
        | none =>
          simp only [htc] at hv
          split at hv
          · next hk =>
            exact Or.inl ⟨getTopCard_none col htc, of_decide_eq_true hk⟩
          · exact absurd hv (by simp)
        | some t =>
          simp only [htc] at hv
          split at hv
          · next hcs =>
            unfold canStackOnTableau at hcs
            rw [Bool.and_eq_true] at hcs
            obtain ⟨h1, h2⟩ := hcs
            refine Or.inr ⟨t, rfl, Ne.symm (of_decide_eq_true h1), ?_⟩
            have h3 := of_decide_eq_true h2
            omega
          · exact absurd hv (by simp)
    | foundation suit =>
      rw [hto] at hv
      simp only [] at hv
      split at hv
      · exact absurd hv (by simp)
      · next hcc =>
        split at hv
        · next hcsf =>
          have hsuit : c.suit = suit := by
            by_contra hne
            unfold canStackOnFoundation at hcsf
            rw [if_pos hne] at hcsf
            exact Bool.noConfusion hcsf
          refine ⟨hcc, hsuit, ?_⟩
          unfold canStackOnFoundation at hcsf
          rw [if_neg (fun hne => hne hsuit)] at hcsf
          cases htc : getTopCard (getFoundationPile s.foundations suit) with
          | none =>
            rw [htc] at hcsf
            exact Or.inl ⟨getTopCard_none _ htc, of_decide_eq_true hcsf⟩
          | some t =>
            rw [htc] at hcsf
            exact Or.inr ⟨t, rfl, of_decide_eq_true hcsf⟩
        · exact absurd hv (by simp)
    | stock => rw [hto] at hv; exact absurd hv (by simp)
    | waste => rw [hto] at hv; exact absurd hv (by simp)
  · intro hlegal
    obtain ⟨lead, rest, hrun, hdest⟩ := hlegal
    simp only [validateMove, hrun]
    cases hto : m.to' with
    | tableau ci idx =>
      rw [hto] at hdest
      obtain ⟨col, hcol, hcase⟩ := hdest
      simp only [hcol]
      rcases hcase with ⟨hnil, hk⟩ | ⟨t, htc, hcolor, hrank⟩
      · subst hnil
        simp [getTopCard, isKing, hk]
      · have h1 : hasAlternatingColors lead t = true :=
          decide_eq_true (Ne.symm hcolor)
        have h2 : lead.rank = t.rank - 1 := by omega
        simp [htc, canStackOnTableau, h1, h2]
    | foundation suit =>
      rw [hto] at hdest
      obtain ⟨hcc, hsuit, hcase⟩ := hdest
      simp only []
      rw [if_neg hcc]
      rcases hcase with ⟨hempty, hrank⟩ | ⟨t, htc, hrank⟩
      · rw [show canStackOnFoundation lead
            (getTopCard (getFoundationPile s.foundations suit)) suit = true from by
          rw [hempty]
          unfold canStackOnFoundation
          rw [if_neg (fun hne => hne hsuit)]
          simpa [getTopCard] using hrank]
        rw [if_pos rfl]
      · rw [show canStackOnFoundation lead
            (getTopCard (getFoundationPile s.foundations suit)) suit = true from by
          unfold canStackOnFoundation
          rw [if_neg (fun hne => hne hsuit), htc]
          simpa using hrank]
        rw [if_pos rfl]
    | stock => rw [hto] at hdest; exact hdest.elim
    | waste => rw [hto] at hdest; exact hdest.elim

theorem pairsOf_card (l : List Card) : (pairsOf l).card = l.length := by
  unfold pairsOf
  rw [Multiset.coe_card, List.length_map]

theorem length_flatten_set (cols : List Pile) (i : Nat) (c : Pile)
    (h : i < cols.length) :
    ((cols.set i c).flatten).length + (cols.getD i []).length
      = cols.flatten.length + c.length := by
  have h2 := congrArg Multiset.card (pairsOf_flatten_set cols i c h)
  simpa [Multiset.card_add, pairsOf_card] using h2

theorem flipLastIfFaceDown_length (l : List Card) :
    (flipLastIfFaceDown l).length = l.length := by
  cases hl : l.getLast? with
  | none => unfold flipLastIfFaceDown; rw [hl]
  | some c =>
    have hne : l ≠ [] := by
      intro he
      rw [he] at hl
      exact Option.noConfusion hl
    have hpos : 0 < l.length := List.length_pos.2 hne
    unfold flipLastIfFaceDown
    rw [hl]
    show (if c.faceUp = true then l else l.dropLast ++ [flipCardUp c]).length = l.length
    split
    · rfl
    · simp only [List.length_append, List.length_dropLast, List.length_singleton]
      omega

theorem tableauCardCount_flatten (s : GameState) :
    tableauCardCount s = s.tableau.columns.flatten.length := by
  unfold tableauCardCount
  rw [List.length_flatten]

theorem foundationCardCount_add (x : GameState) (suit : Suit) (cards : List Card) :
    foundationCardCount (addCardsToDestination x (CardLocation.foundation suit) cards)
      = foundationCardCount x + cards.length := by
  cases suit <;>
    simp only [addCardsToDestination, setFoundationPile, getFoundationPile,
      foundationCardCount, List.length_append] <;>
    omega

theorem findMoveAux_step : ∀ (fuel k : Nat) (s s' : GameState),
    findMoveAux s fuel k = some s' →
      tableauCardCount s' + 1 = tableauCardCount s ∧
      foundationCardCount s' = foundationCardCount s + 1 ∧
      s'.stats.moves = s.stats.moves + 1 := by
  intro fuel
  induction fuel with
  | zero =>
    intro k s s' h
    exact Option.noConfusion h
  | succ n ih =>
    intro k s s' h
    unfold findMoveAux at h
    by_cases hk7 : k ≥ 7
    · rw [if_pos hk7] at h
      exact Option.noConfusion h
    · rw [if_neg hk7] at h
      dsimp only at h
      by_cases hemp : (s.tableau.columns.getD k []).length = 0
      · rw [if_pos hemp] at h
        exact ih (k + 1) s s' h
      · rw [if_neg hemp] at h
        cases hap : applyMove s
            ⟨CardLocation.tableau (k : Int) (((s.tableau.columns.getD k []).length : Int) - 1),
              CardLocation.foundation ((s.tableau.columns.getD k []).getD
                ((s.tableau.columns.getD k []).length - 1) default).suit, 1⟩ with
        | none =>
          rw [hap] at h
          exact ih (k + 1) s s' h
        | some r =>
          cases r with
          | failure e =>
            rw [hap] at h
            exact ih (k + 1) s s' h
          | success v =>
            rw [hap] at h
            simp only [Option.some.injEq] at h
            subst h
            obtain ⟨hv, run, hrun, hne, hs'⟩ := applyMove_elim _ _ _ hap
            have hkrange : k < s.tableau.columns.length := by
              by_contra hout
              rw [List.getD_eq_default _ _ (by omega)] at hemp
              exact hemp rfl
            have hcolval : s.tableau.columns[k] = s.tableau.columns.getD k [] := by
              rw [List.getD_eq_getElem _ _ hkrange]
            have hget : jsGet s.tableau.columns (k : Int) = some (s.tableau.columns.getD k []) := by
              unfold jsGet
              rw [if_neg (by omega)]
              rw [show (k : Int).toNat = k from rfl]
              rw [List.getElem?_eq_getElem hkrange, hcolval]
            have hlen1 : 1 ≤ (s.tableau.columns.getD k []).length := by omega
            have hrunlen : run.length = 1 := by
              simp only [getCardsForMove, hget] at hrun
              rw [if_neg (by omega)] at hrun
              simp only [Option.some.injEq] at hrun
              subst hrun
              unfold jsSliceFrom jsStartIndex
              rw [if_neg (by omega)]
              rw [List.length_drop]
              omega
            -- the index where the splice truncates
            have hsplice : jsStartIndex (s.tableau.columns.getD k []).length
                (((s.tableau.columns.getD k []).length : Int) - 1)
                = (s.tableau.columns.getD k []).length - 1 := by
              unfold jsStartIndex
              rw [if_neg (by omega)]
              omega
            have hflen : (flipLastIfFaceDown ((s.tableau.columns.getD k []).take
                (jsStartIndex (s.tableau.columns.getD k []).length
                  (((s.tableau.columns.getD k []).length : Int) - 1)))).length
                = (s.tableau.columns.getD k []).length - 1 := by
              rw [flipLastIfFaceDown_length, List.length_take, hsplice]
              omega
            have hset := length_flatten_set s.tableau.columns k
              (flipLastIfFaceDown ((s.tableau.columns.getD k []).take
                (jsStartIndex (s.tableau.columns.getD k []).length
                  (((s.tableau.columns.getD k []).length : Int) - 1)))) hkrange
            rw [hflen] at hset
            -- name the two intermediate states
            rw [hs']
            set srem := removeCardsFromSource s
              ⟨CardLocation.tableau (k : Int) (((s.tableau.columns.getD k []).length : Int) - 1),
                CardLocation.foundation ((s.tableau.columns.getD k []).getD
                  ((s.tableau.columns.getD k []).length - 1) default).suit, 1⟩ with hsremdef
            have hremstate : srem
                = { s with tableau := ⟨s.tableau.columns.set k
                    (flipLastIfFaceDown ((s.tableau.columns.getD k []).take
                      (jsStartIndex (s.tableau.columns.getD k []).length
                        (((s.tableau.columns.getD k []).length : Int) - 1))))⟩ } := by
              rw [hsremdef]
              simp only [removeCardsFromSource, hget]
              rfl
            have hremcount : tableauCardCount srem + 1 = tableauCardCount s := by
              rw [hremstate, tableauCardCount_flatten, tableauCardCount_flatten]
              show (s.tableau.columns.set k _).flatten.length + 1
                = s.tableau.columns.flatten.length
              omega
            have hremfound : srem.foundations = s.foundations := by
              rw [hremstate]
            have hremstats : srem.stats = s.stats := removeCardsFromSource_stats s _
            refine ⟨?_, ?_, ?_⟩
            · show tableauCardCount (addCardsToDestination srem _ run) + 1 = tableauCardCount s
              have htab : (addCardsToDestination srem
                  (CardLocation.foundation ((s.tableau.columns.getD k []).getD
                    ((s.tableau.columns.getD k []).length - 1) default).suit) run).tableau
                  = srem.tableau := rfl
              rw [show tableauCardCount (addCardsToDestination srem
                  (CardLocation.foundation ((s.tableau.columns.getD k []).getD
                    ((s.tableau.columns.getD k []).length - 1) default).suit) run)
                  = tableauCardCount srem from by
                rw [tableauCardCount_flatten, tableauCardCount_flatten, htab]]
              exact hremcount
            · show foundationCardCount (addCardsToDestination srem _ run)
                = foundationCardCount s + 1
              rw [foundationCardCount_add, hrunlen]
              rw [show foundationCardCount srem = foundationCardCount s from by
                unfold foundationCardCount
                rw [hremfound]]
            · show (addCardsToDestination srem _ run).stats.moves + 1 = s.stats.moves + 1
              rw [addCardsToDestination_stats, hremstats]

theorem findMove_step (k : Nat) (s s' : GameState) (h : findMove s k = some s') :
    tableauCardCount s' + 1 = tableauCardCount s ∧
    foundationCardCount s' = foundationCardCount s + 1 ∧
    s'.stats.moves = s.stats.moves + 1 :=
  findMoveAux_step (7 - k) k s s' h

theorem tryAutoMove_spec : ∀ (fuel : Nat) (s : GameState), tableauCardCount s < fuel →
    (tryAutoMove fuel s).stats.moves ≤ s.stats.moves + (tableauCardCount s : Int) ∧
    (checkWinCondition (tryAutoMove fuel s) = true ∨
      findMove (tryAutoMove fuel s) 0 = none) := by
  intro fuel
  induction fuel with
  | zero => intro s hs; exact absurd hs (by omega)
  | succ fuel ih =>
    intro s hs
    unfold tryAutoMove
    by_cases hwin : checkWinCondition s = true
    · rw [if_pos hwin]
      exact ⟨by omega, Or.inl hwin⟩
    · rw [if_neg hwin]
      cases hfm : findMove s 0 with
      | none =>
        show s.stats.moves ≤ s.stats.moves + (tableauCardCount s : Int) ∧
          (checkWinCondition s = true ∨ findMove s 0 = none)
        exact ⟨by omega, Or.inr hfm⟩
      | some s1 =>
        show (tryAutoMove fuel s1).stats.moves
            ≤ s.stats.moves + (tableauCardCount s : Int) ∧
          (checkWinCondition (tryAutoMove fuel s1) = true ∨
            findMove (tryAutoMove fuel s1) 0 = none)
        obtain ⟨hc, _, hm⟩ := findMove_step 0 s s1 hfm
        have hlt : tableauCardCount s1 < fuel := by omega
        obtain ⟨ih1, ih2⟩ := ih s1 hlt
        exact ⟨by omega, ih2⟩

/-- C8: `performAutoComplete` terminates.  Every successful inner
`findMove` transfers exactly one card from a tableau column to a
foundation, strictly decreasing the tableau card count; the greedy loop
therefore applies at most `tableauCardCount` moves (at most 52 for a
standard deck) before a full scan finds no applicable move (or the game
is won) and the current state is returned. -/
theorem claim_c8_autoComplete :
    (∀ (s : GameState) (k : Nat) (s' : GameState), findMove s k = some s' →
      tableauCardCount s' + 1 = tableauCardCount s ∧
      foundationCardCount s' = foundationCardCount s + 1) ∧
    (∀ s : GameState, (performAutoComplete s).stats.moves
      ≤ s.stats.moves + (tableauCardCount s : Int)) ∧
    (∀ s : GameState, cardMultiset s = standardDeck →
      (performAutoComplete s).stats.moves ≤ s.stats.moves + 52) ∧
    (∀ s : GameState, checkWinCondition (performAutoComplete s) = true ∨
      findMove (performAutoComplete s) 0 = none) := by
  refine ⟨?_, ?_, ?_, ?_⟩
  · intro s k s' h
    obtain ⟨h1, h2, _⟩ := findMove_step k s s' h
    exact ⟨h1, h2⟩
  · intro s
    exact (tryAutoMove_spec (tableauCardCount s + 1) s (by omega)).1
  · intro s hconv
    have hb := (tryAutoMove_spec (tableauCardCount s + 1) s (by omega)).1
    have hlen : (allCardsList s).length = 52 := by
      have hcard := congrArg Multiset.card hconv
      rw [show (cardMultiset s).card = (allCardsList s).length from by
        unfold cardMultiset
        rw [Multiset.coe_card, List.length_map]] at hcard
      rw [show standardDeck.card = 52 from rfl] at hcard
      exact hcard
    have htab : tableauCardCount s ≤ (allCardsList s).length := by
      rw [tableauCardCount_flatten]
      unfold allCardsList
      simp only [List.length_append]
      omega
    have hb2 : (performAutoComplete s).stats.moves
        ≤ s.stats.moves + (tableauCardCount s : Int) := hb
    omega
  · intro s
    exact (tryAutoMove_spec (tableauCardCount s + 1) s (by omega)).2

set_option maxRecDepth 8000 in
/-- Witness for C8: a concrete one-card find-move step, and the move
bound at a dealt (full-deck) state. -/
theorem claim_c8_autoComplete_witness :
    findMove c8State 0 = some c8FindResult ∧
    tableauCardCount c8FindResult + 1 = tableauCardCount c8State ∧
    foundationCardCount c8FindResult = foundationCardCount c8State + 1 ∧
    (performAutoComplete (dealGame 7 0)).stats.moves
      ≤ (dealGame 7 0).stats.moves + (tableauCardCount (dealGame 7 0) : Int) ∧
    cardMultiset (dealGame 7 0) = standardDeck ∧
    (performAutoComplete (dealGame 7 0)).stats.moves ≤ (dealGame 7 0).stats.moves + 52 ∧
    (checkWinCondition (performAutoComplete c8State) = true ∨
      findMove (performAutoComplete c8State) 0 = none) :=
  ⟨by decide,
   (claim_c8_autoComplete.1 c8State 0 c8FindResult (by decide)).1,
   (claim_c8_autoComplete.1 c8State 0 c8FindResult (by decide)).2,
   claim_c8_autoComplete.2.1 (dealGame 7 0),
   by decide,
   claim_c8_autoComplete.2.2.1 (dealGame 7 0) (by decide),
   claim_c8_autoComplete.2.2.2 c8State⟩

namespace PileVariant

theorem vValidateMove_isSome (s : VGameState) (m : VMove) (run : List Card)
    (h : vGetCardsForMove s m.from' = some run) :
    vValidateMove s m ≠ none := by
  intro hnone
  unfold vValidateMove at hnone
  rw [h] at hnone
  cases run with
  | nil => exact Option.noConfusion hnone
  | cons c rest => exact Option.noConfusion hnone

theorem tryMoves_eq_find (s : VGameState) (moves : List VMove)
    (h : ∀ m ∈ moves, vValidateMove s m ≠ none) :
    tryMoves s moves
      = some (moves.find? (fun move => isOkOptResult (vValidateMove s move))) := by
  induction moves with
  | nil => rfl
  | cons m rest ih =>
    have ih' := ih (fun m' hm' => h m' (List.mem_cons_of_mem m hm'))
    cases hv : vValidateMove s m with
    | none => exact absurd hv (h m (List.mem_cons_self m rest))
    | some r =>
      cases hok : isOkResult r with
      | true => simp [tryMoves, List.find?, hv, isOkOptResult, hok]
      | false =>
        simp only [tryMoves, List.find?, hv, isOkOptResult, hok, if_false]
        exact ih'

theorem vGetCardsForMove_isSome (s : VGameState) (src : VCardLocation) (c : Card)
    (hc : vGetCardAtLocation s src = some c) :
    ∃ run, vGetCardsForMove s src = some run := by
  cases src with
  | tableau ci idx =>
    cases hcol : jsGet s.tableau.columns ci with
    | none =>
      simp only [vGetCardAtLocation, hcol] at hc
      exact Option.noConfusion hc
    | some col =>
      by_cases hlen : (col.length : Int) ≤ idx
      · exact ⟨[], by simp only [vGetCardsForMove, hcol]; rw [if_pos hlen]⟩
      · exact ⟨jsSliceFrom col idx, by simp only [vGetCardsForMove, hcol]; rw [if_neg hlen]⟩
  | foundation pi =>
    cases hp : s.foundations.piles[pi]? with
    | none =>
      simp only [vGetCardAtLocation, hp] at hc
      exact Option.noConfusion hc
    | some pile =>
      cases ht : getTopCard pile with
      | none => exact ⟨[], by simp only [vGetCardsForMove, hp, ht]⟩
      | some t => exact ⟨[t], by simp only [vGetCardsForMove, hp, ht]⟩
  | waste =>
    cases ht : getTopCard s.stockAndWaste.waste with
    | none => exact ⟨[], by simp only [vGetCardsForMove, ht]⟩
    | some t => exact ⟨[t], by simp only [vGetCardsForMove, ht]⟩
  | stock => exact ⟨[], rfl⟩

/-- C6: when the source holds a card, `findBestMove` does not throw and
returns exactly the first validating move of the claim's candidate
order: the four foundation slots in index order (only when the source
run is a single card), then the seven tableau columns in index order,
skipping the source's own column; `null` when nothing validates. -/
theorem claim_c6_findBestMove (s : VGameState) (src : VCardLocation) (c : Card)
    (hc : vGetCardAtLocation s src = some c) :
    findBestMove s src = some (firstValidatingMove s (claimCandidates s src)) := by
  obtain ⟨run, hrun⟩ := vGetCardsForMove_isSome s src c hc
  have htm : ∀ (l : List VMove), (∀ m ∈ l, m.from' = src) →
      tryMoves s l
        = some (l.find? (fun move => isOkOptResult (vValidateMove s move))) := by
    intro l hl
    refine tryMoves_eq_find s l ?_
    intro m hm
    exact vValidateMove_isSome s m run (by rw [hl m hm]; exact hrun)
  have hfrom4 : ∀ m ∈ (List.range 4).map
      (fun i => (⟨src, VCardLocation.foundation i, 1⟩ : VMove)), m.from' = src := by
    intro m hm
    rw [List.mem_map] at hm
    obtain ⟨i, _, rfl⟩ := hm
    rfl
  have hfrom7 : ∀ (cnt : Int), ∀ m ∈ ((List.range 7).filter
        (fun i => ! isSourceColumn src i)).map
      (fun i => (⟨src, VCardLocation.tableau (i : Int) 0, cnt⟩ : VMove)),
      m.from' = src := by
    intro cnt m hm
    rw [List.mem_map] at hm
    obtain ⟨i, _, rfl⟩ := hm
    rfl
  cases src with
  | tableau ci idx =>
    have hcol0 : ∃ col, jsGet s.tableau.columns ci = some col := by
      cases hcol : jsGet s.tableau.columns ci with
      | none =>
        simp only [vGetCardAtLocation, hcol] at hc
        exact Option.noConfusion hc
      | some col => exact ⟨col, rfl⟩
    obtain ⟨col, hcol⟩ := hcol0
    have hcard : jsGet col idx = some c := by
      simp only [vGetCardAtLocation, hcol] at hc
      exact hc
    obtain ⟨hnegci, hltci, hgetci⟩ := jsGet_eq_getElem _ _ _ hcol
    obtain ⟨hnegidx, hltidx, _⟩ := jsGet_eq_getElem _ _ _ hcard
    have hcold : s.tableau.columns.getD ci.toNat [] = col := by
      rw [List.getD_eq_getElem _ _ hltci]
      rw [List.getElem?_eq_getElem hltci, Option.some.injEq] at hgetci
      exact hgetci
    have hrunval : vGetCardsForMove s (VCardLocation.tableau ci idx)
        = some (col.drop idx.toNat) := by
      simp only [vGetCardsForMove, hcol]
      rw [if_neg (by omega)]
      unfold jsSliceFrom jsStartIndex
      rw [if_neg (by omega)]
      have hmin : min idx.toNat col.length = idx.toNat := by omega
      rw [hmin]
    unfold findBestMove firstValidatingMove claimCandidates
    rw [hc]
    dsimp only
    by_cases hgate : ((s.tableau.columns.getD ci.toNat []).length : Int) - idx = 1
    · have hgate' : ((vGetCardsForMove s
          (VCardLocation.tableau ci idx)).getD []).length = 1 := by
        rw [hrunval]
        show (col.drop idx.toNat).length = 1
        rw [List.length_drop]
        rw [hcold] at hgate
        omega
      rw [if_pos hgate, if_pos hgate']
      rw [htm _ hfrom4, List.find?_append]
      cases hfv : List.find? (fun move => isOkOptResult (vValidateMove s move))
          ((List.range 4).map fun i =>
            (⟨VCardLocation.tableau ci idx, VCardLocation.foundation i, 1⟩ : VMove)) with
      | none => exact htm _ (hfrom7 _)
      | some mv => rfl
    · have hgate' : ¬ ((vGetCardsForMove s
          (VCardLocation.tableau ci idx)).getD []).length = 1 := by
        rw [hrunval]
        show ¬ (col.drop idx.toNat).length = 1
        rw [List.length_drop]
        rw [hcold] at hgate
        omega
      rw [if_neg hgate, if_neg hgate']
      exact htm _ (hfrom7 _)
  | waste =>
    have htop : getTopCard s.stockAndWaste.waste = some c := hc
    have hrunval : vGetCardsForMove s VCardLocation.waste = some [c] := by
      unfold vGetCardsForMove
      rw [htop]
    unfold findBestMove firstValidatingMove claimCandidates
    rw [hc]
    dsimp only
    rw [if_pos rfl, if_pos (by rw [hrunval]; rfl)]
    rw [htm _ hfrom4, List.find?_append]
    cases hfv : List.find? (fun move => isOkOptResult (vValidateMove s move))
        ((List.range 4).map fun i =>
          (⟨VCardLocation.waste, VCardLocation.foundation i, 1⟩ : VMove)) with
    | none => exact htm _ (hfrom7 _)
    | some mv => rfl
  | foundation pi =>
    have hrunval : vGetCardsForMove s (VCardLocation.foundation pi) = some [c] := by
      cases hp : s.foundations.piles[pi]? with
      | none =>
        simp only [vGetCardAtLocation, hp] at hc
        exact Option.noConfusion hc
      | some pile =>
        simp only [vGetCardAtLocation, hp] at hc
        simp only [vGetCardsForMove, hp, hc]
    unfold findBestMove firstValidatingMove claimCandidates
    rw [hc]
    dsimp only
    rw [if_pos rfl, if_pos (by rw [hrunval]; rfl)]
    rw [htm _ hfrom4, List.find?_append]
    cases hfv : List.find? (fun move => isOkOptResult (vValidateMove s move))
        ((List.range 4).map fun i =>
          (⟨VCardLocation.foundation pi, VCardLocation.foundation i, 1⟩ : VMove)) with
    | none => exact htm _ (hfrom7 _)
    | some mv => rfl
  | stock =>
    have hnone4 : List.find? (fun move => isOkOptResult (vValidateMove s move))
        ((List.range 4).map fun i =>
          (⟨VCardLocation.stock, VCardLocation.foundation i, 1⟩ : VMove)) = none := by
      rw [List.find?_eq_none]
      intro m hm
      rw [List.mem_map] at hm
      obtain ⟨i, _, rfl⟩ := hm
      show ¬ isOkOptResult
        (vValidateMove s ⟨VCardLocation.stock, VCardLocation.foundation i, 1⟩) = true
      rw [show vValidateMove s ⟨VCardLocation.stock, VCardLocation.foundation i, 1⟩
          = some (Result.failure ("No cards at source location")) from rfl]
      simp [isOkOptResult, isOkResult]
    unfold findBestMove firstValidatingMove claimCandidates
    rw [hc]
    dsimp only
    rw [if_pos rfl, if_neg (by simp [vGetCardsForMove])]
    rw [htm _ hfrom4, hnone4]
    exact htm _ (hfrom7 _)

/-- Witness for C6 at a concrete pile-variant state (an Ace on column 0,
all foundations empty). -/
theorem claim_c6_findBestMove_witness :
    vGetCardAtLocation c6State (VCardLocation.tableau 0 0)
      = some ⟨Suit.hearts, 1, true⟩ ∧
    findBestMove c6State (VCardLocation.tableau 0 0)
      = some (firstValidatingMove c6State
          (claimCandidates c6State (VCardLocation.tableau 0 0))) ∧
    findBestMove c6State (VCardLocation.tableau 0 0)
      = some (some ⟨VCardLocation.tableau 0 0, VCardLocation.foundation 0, 1⟩) :=
  ⟨by decide,
   claim_c6_findBestMove c6State (VCardLocation.tableau 0 0) ⟨Suit.hearts, 1, true⟩
     (by decide),
   by decide⟩

end PileVariant

end Solitaire
